import Mathlib

/-!
A shallow embedding of hivego `schedule/task.go`.

The Go file `schedule/task.go` defines the `Task` type and the operations that keep an in-memory
task graph reconciled with a persisted definition (`InitTask`, `NextTime`, `Refresh`, `AddTask`,
`Delete`, ...).

Modelling conventions.

* `*Task` values are addresses into a heap `Ptr → Task`; a possibly nil pointer is an `Option Ptr`.
  Method receivers and the entries of `Schedule.Tasks` are non-nil: every one of them is
  dereferenced before anything else happens to it.
* `int64`, `int8`, `int16`, `time.Duration` and `time.Time` are integers. The only arithmetic the
  file performs is `RelTaskCnt++` (at most `len(RelTasksId)` times from zero) and `TaskCnt++`,
  and a slice or map cannot hold `2^63` elements, so no operation of the file can wrap.
* `map[string]V` is an association list with unique keys; `range` visits it in list order (Go
  leaves the order open; no statement below depends on it).
* Run-time faults (nil dereference, index out of range) are an explicit outcome, `Result.panic`.
* The persistence methods (`getTask`, `getTaskAttr`, `add`, ...) and the cycle evaluator
  `getCountDownTime` live outside `task.go`; they are parameters of the embedding. Every call
  of a persistence method is recorded in `World.calls`.
* `g.L.Debugf` produces no observable effect and is left out; `g.L.Warningln` is recorded.
-/

namespace Hivego

/-- Address of a `Task` object, a non-nil `*Task`. -/
abbrev Ptr := Nat

/-- Stand-in for `time.Time`: an instant as an integer. -/
abbrev Time := Int

/-- Stand-in for `time.Duration`. -/
abbrev Duration := Int

/-- Run-time faults of the Go program. -/
inductive Fault where
  | nilDeref
  | indexOutOfRange
  deriving DecidableEq, Repr

/-- Outcome of a call of a method returning `error`: it returns (with the state it leaves
and its `error` result, `none` for `nil`) or it faults. -/
inductive Result (α : Type) where
  | ret (w : α) (err : Option String)
  | panic (f : Fault)

/-- Go `strconv.FormatInt(i, 10)`: the decimal string of `i`, with a leading `-` when negative. -/
def FormatInt (i : Int) : String :=
  toString i

/-- Map read `m[k]` with the comma-ok result: `none` when the key is absent. -/
def mapGet {β : Type} : List (String × β) → String → Option β
  | [], _ => none
  | (k1, v) :: rest, k => if k1 = k then some v else mapGet rest k

/-- Map write `m[k] = v`: overwrites the entry of an existing key, else adds an entry. -/
def mapSet {β : Type} : List (String × β) → String → β → List (String × β)
  | [], k, v => [(k, v)]
  | (k1, v1) :: rest, k, v => if k1 = k then (k, v) :: rest else (k1, v1) :: mapSet rest k v

/-- Map removal `delete(m, k)`. -/
def mapDelete {β : Type} (m : List (String × β)) (k : String) : List (String × β) :=
  m.filter (fun e => decide (e.1 ≠ k))

/-- Map read `m[k]` of a `map[string]*Task`: the zero value `nil` when the key is absent. -/
def mapAt (m : List (String × Option Ptr)) (k : String) : Option Ptr :=
  (mapGet m k).getD none

/-- The Go struct `Task`. -/
structure Task where
  Id : Int
  Address : String
  Name : String
  TaskType : Int
  ScheduleCyc : String
  TaskCyc : String
  ExecType : Int
  Disabled : Int
  Priority : Int
  StartSecond : Duration
  Cmd : String
  Desc : String
  TimeOut : Int
  Param : List String
  Attr : List (String × String)
  JobId : Int
  RelTasksId : List Int
  RelTasks : List (String × Option Ptr)
  RelTaskCnt : Int
  CreateUserId : Int
  CreateTime : Option Time
  ModifyUserId : Int
  ModifyTime : Option Time
  NextRunTime : Time
  PreRunTime : Time
  deriving DecidableEq, Repr

/-- Modelled from the spec: the `Job` type is not in `task.go`. A job has an identity, a
mapping `Tasks` from stringified task identity to live task, and `TaskCnt`, the size of it. -/
structure Job where
  Id : Int
  Name : String
  Tasks : List (String × Option Ptr)
  TaskCnt : Int
  deriving DecidableEq, Repr

/-- Modelled from the spec: the `Schedule` type is not in `task.go`. The registry holds the
ordered collection `Tasks` of live tasks, `TaskCnt`, and the jobs that `GetJobById` queries. -/
structure Schedule where
  Tasks : List Ptr
  TaskCnt : Int
  Jobs : List Job
  deriving DecidableEq, Repr

/-- One observable external call. -/
inductive Call where
  | getTask (t : Ptr)
  | getTaskAttr (t : Ptr)
  | getTaskParam (t : Ptr)
  | getRelTaskId (t : Ptr)
  | update (t : Ptr)
  | add (t : Ptr)
  | addRelJob (t : Ptr)
  | addRelTask (t : Ptr) (relid : Int)
  | addParam (t : Ptr) (p : String)
  | delParam (t : Ptr)
  | deleteRelTask (t : Ptr) (relid : Int)
  | deleteJobTaskRel (t : Ptr)
  | deleteTask (t : Ptr)
  | jobDeleteTask (job : Int) (task : Int)
  | warning (msg : String)
  deriving DecidableEq, Repr

/-- Modelled from the spec: the persistence methods of `Task` that `task.go` calls are not in
`task.go`. They are parameters, over a store of type `σ`, with the shape the spec gives them:
each gets the store and the receiver and returns the new store and its `error` (`none` for
`nil`). `getTask` returns the receiver as the load leaves it; `getTaskAttr`, `getTaskParam` and
`getRelTaskId` return the value they load into `Attr`, `Param` and `RelTasksId`; the others
touch the store only. `jobDeleteTask` is the persistence step of the job-level task removal. -/
structure Gateway (σ : Type) where
  getTask : σ → Task → σ × Task × Option String
  getTaskAttr : σ → Task → σ × List (String × String) × Option String
  getTaskParam : σ → Task → σ × List String × Option String
  getRelTaskId : σ → Task → σ × List Int × Option String
  update : σ → Task → σ × Option String
  add : σ → Task → σ × Option String
  addRelJob : σ → Task → σ × Option String
  addRelTask : σ → Task → Int → σ × Option String
  addParam : σ → Task → String → σ × Option String
  delParam : σ → Task → σ × Option String
  deleteRelTask : σ → Task → Int → σ × Option String
  deleteJobTaskRel : σ → Task → σ × Option String
  deleteTask : σ → Task → σ × Option String
  jobDeleteTask : σ → Int → Int → σ × Option String

/-- The cycle evaluator `getCountDownTime(cyc, base, anchor)` with its two results. -/
abbrev CycleEvaluator := String → List Int → List Duration → Time × Option String

/-- Program state: the heap of tasks, the schedule, the persisted store and the calls made. -/
structure World (σ : Type) where
  heap : Ptr → Task
  sched : Schedule
  db : σ
  calls : List Call

/-- Write through a `*Task`. -/
def World.setTask {σ : Type} (w : World σ) (p : Ptr) (t : Task) : World σ :=
  { w with heap := fun q => if q = p then t else w.heap q }

/-- Record an external call. -/
def World.record {σ : Type} (w : World σ) (c : Call) : World σ :=
  { w with calls := w.calls ++ [c] }

/-- Modelled from the spec: `Schedule.GetTaskById` is not in `task.go`. It looks up by linear
scan the live task of `Tasks` with the given identity, `nil` when there is none. -/
def Schedule.GetTaskById (s : Schedule) (heap : Ptr → Task) (id : Int) : Option Ptr :=
  s.Tasks.find? (fun q => decide ((heap q).Id = id))

/-- Modelled from the spec: `Schedule.addTaskList` is not in `task.go`. It registers the task
in the schedule's collection by appending it, without a duplicate check. -/
def Schedule.addTaskList (s : Schedule) (p : Ptr) : Schedule :=
  { s with Tasks := s.Tasks ++ [p] }

/-- Modelled from the spec: `Schedule.GetJobById` is not in `task.go`. It returns the position
in `Jobs` of the job with the given identity, or an error when there is none. -/
def Schedule.GetJobById (s : Schedule) (id : Int) : Except String Nat :=
  match s.Jobs.findIdx? (fun j => decide (j.Id = id)) with
  | some k => Except.ok k
  | none => Except.error ("not found job by id " ++ FormatInt id)

/-- `Task.NextTime` (task.go 88-96). -/
def Task.NextTime {σ : Type} (cd : CycleEvaluator) (w : World σ) (p : Ptr) : Result (World σ) :=
  let t := w.heap p
  if t.RelTaskCnt = 0 then
    Result.ret (w.setTask p { t with NextRunTime := (cd t.TaskCyc [0] [t.StartSecond]).1 }) none
  else
    match t.RelTasksId with
    | [] => Result.panic Fault.indexOutOfRange
    | rtid :: _ =>
      match mapAt t.RelTasks (FormatInt rtid) with
      | none => Result.panic Fault.nilDeref
      | some d =>
        Result.ret (w.setTask p { t with NextRunTime := (w.heap d).NextRunTime }) none

/-- Call of the persistence method `t.getTask()`. -/
def World.getTask {σ : Type} (gw : Gateway σ) (w : World σ) (p : Ptr) : World σ × Option String :=
  let r := gw.getTask w.db (w.heap p)
  ({ (w.setTask p r.2.1).record (Call.getTask p) with db := r.1 }, r.2.2)

/-- Call of the persistence method `t.getTaskAttr()`. -/
def World.getTaskAttr {σ : Type} (gw : Gateway σ) (w : World σ) (p : Ptr) :
    World σ × Option String :=
  let r := gw.getTaskAttr w.db (w.heap p)
  ({ (w.setTask p { w.heap p with Attr := r.2.1 }).record (Call.getTaskAttr p) with db := r.1 },
    r.2.2)

/-- Call of the persistence method `t.getTaskParam()`. -/
def World.getTaskParam {σ : Type} (gw : Gateway σ) (w : World σ) (p : Ptr) :
    World σ × Option String :=
  let r := gw.getTaskParam w.db (w.heap p)
  ({ (w.setTask p { w.heap p with Param := r.2.1 }).record (Call.getTaskParam p) with db := r.1 },
    r.2.2)

/-- Call of the persistence method `t.getRelTaskId()`. -/
def World.getRelTaskId {σ : Type} (gw : Gateway σ) (w : World σ) (p : Ptr) :
    World σ × Option String :=
  let r := gw.getRelTaskId w.db (w.heap p)
  ({ (w.setTask p { w.heap p with RelTasksId := r.2.1 }).record (Call.getRelTaskId p)
      with db := r.1 }, r.2.2)

/-- Call of a persistence method that only writes to the store. -/
def World.store {σ : Type} (w : World σ) (c : Call) (r : σ × Option String) :
    World σ × Option String :=
  ({ w.record c with db := r.1 }, r.2)

/-- The warning text of task.go 75 and 175. -/
def relTaskWarning (id : Int) (idkey : String) : String :=
  "[t.InitTask] Task [" ++ FormatInt id ++ "] not found RelTask [" ++ idkey ++ "] .\n"

/-- The dependency-resolution loop over `t.RelTasksId` (task.go 70-81, the same text again at
170-181): every id is looked up in the schedule and stored under its decimal string, a missing
one as `nil` with a warning, a found one counted in `RelTaskCnt`. -/
def relTasksLoop {σ : Type} (p : Ptr) : List Int → World σ → World σ
  | [], w => w
  | rtid :: rest, w =>
    let rt := w.sched.GetTaskById w.heap rtid
    let idkey := FormatInt rtid
    let w1 := w.setTask p { w.heap p with RelTasks := mapSet (w.heap p).RelTasks idkey rt }
    match rt with
    | none => relTasksLoop p rest (w1.record (Call.warning (relTaskWarning (w1.heap p).Id idkey)))
    | some _ =>
      relTasksLoop p rest (w1.setTask p { w1.heap p with RelTaskCnt := (w1.heap p).RelTaskCnt + 1 })

/-- The reset of the dependency state (task.go 65-67 and 165-167). -/
def Task.resetRel (t : Task) : Task :=
  { t with RelTasksId := [], RelTasks := [], RelTaskCnt := 0 }

/-- The reset of the dependency state, the load of the dependency ids, whose `err` is assigned
and not read again, and the resolution loop (task.go 65-81, the same text again at 165-181). -/
def resolveRelTasks {σ : Type} (gw : Gateway σ) (w : World σ) (p : Ptr) : World σ :=
  let w1 := w.setTask p (w.heap p).resetRel
  let w2 := (w1.getRelTaskId gw p).1
  relTasksLoop p (w2.heap p).RelTasksId w2

/-- `Task.InitTask` (task.go 45-86). -/
def Task.InitTask {σ : Type} (gw : Gateway σ) (w : World σ) (p : Ptr) : World σ × Option String :=
  let r1 := w.getTask gw p
  match r1.2 with
  | some e => (r1.1, some ("\n[t.InitTask] " ++ e ++ "."))
  | none =>
    let r2 := r1.1.getTaskAttr gw p
    match r2.2 with
    | some e => (r2.1, some ("\n[t.InitTask] " ++ e ++ "."))
    | none =>
      let r3 := r2.1.getTaskParam gw p
      match r3.2 with
      | some e => (r3.1, some ("\n[t.InitTask] " ++ e ++ "."))
      | none =>
        let w4 := resolveRelTasks gw r3.1 p
        ({ w4 with sched := w4.sched.addTaskList p }, none)

/-- Call of the persistence method `t.addParam(p)` for every element of `t.Param` in order,
stopping at the first error, which is wrapped with the name of the calling operation
(task.go 113-119 and 223-229). -/
def addParamLoop {σ : Type} (gw : Gateway σ) (op : String) (p : Ptr) :
    List String → World σ → World σ × Option String
  | [], w => (w, none)
  | a :: rest, w =>
    let r := w.store (Call.addParam p a) (gw.addParam w.db (w.heap p) a)
    match r.2 with
    | some e => (r.1, some ("\n[" ++ op ++ "] " ++ e ++ "."))
    | none => addParamLoop gw op p rest r.1

/-- `Task.UpdateTask` (task.go 100-122). -/
def Task.UpdateTask {σ : Type} (gw : Gateway σ) (w : World σ) (p : Ptr) :
    World σ × Option String :=
  let r1 := w.store (Call.update p) (gw.update w.db (w.heap p))
  match r1.2 with
  | some e => (r1.1, some ("\n[t.UpdateTask] " ++ e ++ "."))
  | none =>
    let r2 := r1.1.store (Call.delParam p) (gw.delParam r1.1.db (r1.1.heap p))
    match r2.2 with
    | some e => (r2.1, some ("\n[t.UpdateTask] " ++ e ++ "."))
    | none => addParamLoop gw "t.UpdateTask" p (r2.1.heap p).Param r2.1

/-- The identity scan of `Refresh` (task.go 126-131): `k` is the position of the next task,
`i` the last position seen so far whose task has the identity, `-1` when there was none. -/
def scanTasks (heap : Ptr → Task) (id : Int) : List Ptr → Int → Int → Int
  | [], _, i => i
  | q :: rest, k, i => scanTasks heap id rest (k + 1) (if (heap q).Id = id then k else i)

/-- Modelled from the spec: `Job.DeleteTask` is not in `task.go`. The job's task-removal
operation for an identity can fail, which leaves the job as it was; when it succeeds the entry
under the stringified identity is gone from `Tasks` and `TaskCnt` is one less. -/
def Job.DeleteTask {σ : Type} (gw : Gateway σ) (db : σ) (j : Job) (id : Int) :
    σ × Job × Option String :=
  let r := gw.jobDeleteTask db j.Id id
  match r.2 with
  | some e => (r.1, j, some e)
  | none => (r.1, { j with Tasks := mapDelete j.Tasks (FormatInt id), TaskCnt := j.TaskCnt - 1 },
      none)

/-- The job at position `k` of the schedule's jobs. -/
def World.job {σ : Type} (w : World σ) (k : Nat) : Job :=
  w.sched.Jobs.getD k (Job.mk 0 "" [] 0)

/-- Write through the `*Job` at position `k` of the schedule's jobs. -/
def World.setJob {σ : Type} (w : World σ) (k : Nat) (j : Job) : World σ :=
  { w with sched := { w.sched with Jobs := w.sched.Jobs.set k j } }

/-- The branch of `Refresh` taken when the reload of the base fields failed (task.go 134-151):
removal of the tracked task at index `i` from the schedule, then from its job. The result's
error is `none` when control leaves the branch at its closing brace. -/
def refreshRemove {σ : Type} (gw : Gateway σ) (w : World σ) (i : Int) : Result (World σ) :=
  if i < 0 then Result.panic Fault.indexOutOfRange
  else
    match w.sched.Tasks.get? i.toNat with
    | none => Result.panic Fault.indexOutOfRange
    | some q =>
      let tasks := w.sched.Tasks.take i.toNat ++ w.sched.Tasks.drop (i.toNat + 1)
      let w1 : World σ := { w with sched := { w.sched with Tasks := tasks, TaskCnt := tasks.length } }
      match w1.sched.GetJobById (w1.heap q).JobId with
      | Except.error er =>
        Result.ret w1 (some ("\n[s.DeleteTask] get job [" ++ FormatInt (w1.heap q).JobId
          ++ "] error " ++ er))
      | Except.ok k =>
        let r := Job.DeleteTask gw w1.db (w1.job k) (w1.heap q).Id
        let w2 : World σ :=
          { (w1.setJob k r.2.1).record (Call.jobDeleteTask (w1.heap q).JobId (w1.heap q).Id)
              with db := r.1 }
        match r.2.2 with
        | some e => Result.ret w2 (some ("\n[s.DeleteTask] DeleteTask error " ++ e))
        | none => Result.ret w2 none

/-- The branch of `Refresh` taken when the identity scan found no tracked task
(task.go 183-194). -/
def refreshInsert {σ : Type} (w : World σ) (p : Ptr) : World σ × Option String :=
  let s1 := w.sched.addTaskList p
  let w1 : World σ := { w with sched := { s1 with TaskCnt := s1.Tasks.length } }
  match w1.sched.GetJobById (w1.heap p).JobId with
  | Except.error _ =>
    (w1, some ("\n[s.AddTask] not found job by id " ++ FormatInt (w1.heap p).JobId))
  | Except.ok k =>
    (w1.setJob k { w1.job k with
        Tasks := mapSet (w1.job k).Tasks (FormatInt (w1.heap p).Id) (some p),
        TaskCnt := (w1.job k).TaskCnt + 1 }, none)

/-- The part of `Refresh` after the base reload and its failure branch (task.go 153-197). -/
def refreshRest {σ : Type} (gw : Gateway σ) (w : World σ) (p : Ptr) (i : Int) :
    World σ × Option String :=
  let r2 := w.getTaskAttr gw p
  match r2.2 with
  | some e => (r2.1, some ("\n[t.InitTask] " ++ e ++ "."))
  | none =>
    let r3 := r2.1.getTaskParam gw p
    match r3.2 with
    | some e => (r3.1, some ("\n[t.InitTask] " ++ e ++ "."))
    | none =>
      let w4 := resolveRelTasks gw r3.1 p
      if i = -1 then refreshInsert w4 p else (w4, none)

/-- `Task.Refresh` (task.go 124-197). When the reload of the base fields fails and both
removals of the failure branch succeed, no `return` ends the branch and control goes on with
the statement after it. -/
def Task.Refresh {σ : Type} (gw : Gateway σ) (w : World σ) (p : Ptr) : Result (World σ) :=
  let i := scanTasks w.heap (w.heap p).Id w.sched.Tasks 0 (-1)
  let r1 := w.getTask gw p
  match r1.2 with
  | none => Result.ret (refreshRest gw r1.1 p i).1 (refreshRest gw r1.1 p i).2
  | some _ =>
    match refreshRemove gw r1.1 i with
    | Result.panic f => Result.panic f
    | Result.ret w2 (some e) => Result.ret w2 (some e)
    | Result.ret w2 none => Result.ret (refreshRest gw w2 p i).1 (refreshRest gw w2 p i).2

/-- The loop of `AddTask` over the dependency map (task.go 215-221): `rt.Id` is read through
each value of the map, a nil value included. -/
def addRelTasksLoop {σ : Type} (gw : Gateway σ) (p : Ptr) :
    List (String × Option Ptr) → World σ → Result (World σ)
  | [], w => Result.ret w none
  | (_, none) :: _, _ => Result.panic Fault.nilDeref
  | (_, some d) :: rest, w =>
    let r := w.store (Call.addRelTask p (w.heap d).Id) (gw.addRelTask w.db (w.heap p) (w.heap d).Id)
    match r.2 with
    | some e => Result.ret r.1 (some ("\n[t.AddTask] " ++ e ++ "."))
    | none => addRelTasksLoop gw p rest r.1

/-- `Task.AddTask` (task.go 202-232). -/
def Task.AddTask {σ : Type} (gw : Gateway σ) (w : World σ) (p : Ptr) : Result (World σ) :=
  let r1 := w.store (Call.add p) (gw.add w.db (w.heap p))
  match r1.2 with
  | some e => Result.ret r1.1 (some ("\n[t.AddTask] " ++ e ++ "."))
  | none =>
    let r2 := r1.1.store (Call.addRelJob p) (gw.addRelJob r1.1.db (r1.1.heap p))
    match r2.2 with
    | some e => Result.ret r2.1 (some ("\n[t.AddTask] " ++ e ++ "."))
    | none =>
      match addRelTasksLoop gw p (r2.1.heap p).RelTasks r2.1 with
      | Result.panic f => Result.panic f
      | Result.ret w3 (some e) => Result.ret w3 (some e)
      | Result.ret w3 none =>
        Result.ret (addParamLoop gw "t.AddTask" p (w3.heap p).Param w3).1
          (addParamLoop gw "t.AddTask" p (w3.heap p).Param w3).2

/-- `Task.DeleteRelTask` (task.go 235-253). -/
def Task.DeleteRelTask {σ : Type} (gw : Gateway σ) (w : World σ) (p : Ptr) (relid : Int) :
    World σ × Option String :=
  let r := w.store (Call.deleteRelTask p relid) (gw.deleteRelTask w.db (w.heap p) relid)
  match r.2 with
  | some e => (r.1, some ("\n[t.DeleteRelTask] " ++ e ++ "."))
  | none => (r.1, none)

/-- `Task.AddRelTask` (task.go 256-267); `rt` is the possibly nil argument. -/
def Task.AddRelTask {σ : Type} (gw : Gateway σ) (w : World σ) (p : Ptr) (rt : Option Ptr) :
    Result (World σ) :=
  match rt with
  | none => Result.panic Fault.nilDeref
  | some d =>
    let r := w.store (Call.addRelTask p (w.heap d).Id) (gw.addRelTask w.db (w.heap p) (w.heap d).Id)
    match r.2 with
    | some e => Result.ret r.1 (some ("\n[t.AddRelTask] error " ++ e ++ "."))
    | none => Result.ret r.1 none

/-- The loop of `Delete` over `t.RelTasksId` (task.go 277-284). -/
def deleteRelTasksLoop {σ : Type} (gw : Gateway σ) (p : Ptr) :
    List Int → World σ → World σ × Option String
  | [], w => (w, none)
  | rid :: rest, w =>
    let r := Task.DeleteRelTask gw w p rid
    match r.2 with
    | some e => (r.1, some ("\n[t.Delete] " ++ e ++ "."))
    | none => deleteRelTasksLoop gw p rest r.1

/-- `Task.Delete` (task.go 270-299). -/
def Task.Delete {σ : Type} (gw : Gateway σ) (w : World σ) (p : Ptr) : World σ × Option String :=
  let r1 := w.store (Call.delParam p) (gw.delParam w.db (w.heap p))
  match r1.2 with
  | some e => (r1.1, some ("\n[t.Delete] error " ++ e ++ "."))
  | none =>
    let r2 := deleteRelTasksLoop gw p (r1.1.heap p).RelTasksId r1.1
    match r2.2 with
    | some e => (r2.1, some e)
    | none =>
      let r3 := r2.1.store (Call.deleteJobTaskRel p) (gw.deleteJobTaskRel r2.1.db (r2.1.heap p))
      match r3.2 with
      | some e => (r3.1, some ("\n[t.Delete] error " ++ e ++ "."))
      | none =>
        let r4 := r3.1.store (Call.deleteTask p) (gw.deleteTask r3.1.db (r3.1.heap p))
        match r4.2 with
        | some e => (r4.1, some ("\n[t.Delete] error " ++ e ++ "."))
        | none => (r4.1, none)

/-- The state a call returned with, `none` when it faulted. -/
def Result.world? {α : Type} : Result α → Option α
  | Result.ret w _ => some w
  | Result.panic _ => none

/-- The `error` a call returned, `none` for `nil` and when it faulted. -/
def Result.err? {α : Type} : Result α → Option String
  | Result.ret _ e => e
  | Result.panic _ => none

/-- The fault of a call, `none` when it returned. -/
def Result.fault? {α : Type} : Result α → Option Fault
  | Result.ret _ _ => none
  | Result.panic f => some f

/-- The number of positions of `ids` whose id the schedule's lookup finds. -/
def resolvedCount (s : Schedule) (heap : Ptr → Task) (ids : List Int) : Nat :=
  ids.countP (fun id => (s.GetTaskById heap id).isSome)

/-- The state in which `InitTask` and `Refresh` resolve the dependencies when they get there
from `w`: the one left by the attribute load and the parameter load. -/
def afterLoads {σ : Type} (gw : Gateway σ) (w : World σ) (p : Ptr) : World σ :=
  ((w.getTaskAttr gw p).1.getTaskParam gw p).1

/-- Value of a decimal digit character. -/
def digitVal (c : Char) : Nat :=
  c.toNat - 48

/-- Value of a string of decimal digits, most significant first. -/
def decVal (l : List Char) : Nat :=
  l.foldl (fun a c => a * 10 + digitVal c) 0

/-- The dependency map the resolution loop builds from `m` over `ids` with lookup `f`. -/
def resolvedMap (f : Int → Option Ptr) (ids : List Int) (m : List (String × Option Ptr)) :
    List (String × Option Ptr) :=
  ids.foldl (fun acc id => mapSet acc (FormatInt id) (f id)) m

/-- The attribute load and the parameter load succeed from `w`. -/
abbrev tailLoadsOk {σ : Type} (gw : Gateway σ) (w : World σ) (p : Ptr) : Prop :=
  (w.getTaskAttr gw p).2 = none ∧ ((w.getTaskAttr gw p).1.getTaskParam gw p).2 = none

/-! ## Concrete tasks, stores and schedules -/

/-- A task with the given identity, owned by job 1, with no dependency. -/
def exTask (id : Int) : Task :=
  { Id := id, Address := "", Name := "", TaskType := 0, ScheduleCyc := "", TaskCyc := "1h",
    ExecType := 0, Disabled := 0, Priority := 0, StartSecond := 0, Cmd := "", Desc := "",
    TimeOut := 0, Param := [], Attr := [], JobId := 1, RelTasksId := [], RelTasks := [],
    RelTaskCnt := 0, CreateUserId := 0, CreateTime := none, ModifyUserId := 0,
    ModifyTime := none, NextRunTime := 0, PreRunTime := 0 }

/-- A store in which every operation succeeds; the base reload leaves the task as it is and
the persisted dependency ids of a task are `rel`. -/
def exGateway (rel : List Int) : Gateway Unit :=
  { getTask := fun db t => (db, t, none),
    getTaskAttr := fun db t => (db, t.Attr, none),
    getTaskParam := fun db t => (db, t.Param, none),
    getRelTaskId := fun db _ => (db, rel, none),
    update := fun db _ => (db, none),
    add := fun db _ => (db, none),
    addRelJob := fun db _ => (db, none),
    addRelTask := fun db _ _ => (db, none),
    addParam := fun db _ _ => (db, none),
    delParam := fun db _ => (db, none),
    deleteRelTask := fun db _ _ => (db, none),
    deleteJobTaskRel := fun db _ => (db, none),
    deleteTask := fun db _ => (db, none),
    jobDeleteTask := fun db _ _ => (db, none) }

/-- The store `exGateway rel` after the base row of the task was deleted: the base reload
fails. -/
def exGatewayNoRow (rel : List Int) : Gateway Unit :=
  { exGateway rel with getTask := fun db t => (db, t, some "sql: no rows in result set") }

/-- The store `exGatewayNoRow [2]` in which the job-level removal of a task fails too. -/
def exGatewayJobFails : Gateway Unit :=
  { exGatewayNoRow [2] with jobDeleteTask := fun db _ _ => (db, some "connection refused") }

/-- The store `exGateway []` with a failing load of the dependency ids. -/
def exGatewayRelFails : Gateway Unit :=
  { exGateway [] with getRelTaskId := fun db _ => (db, [], some "connection refused") }

/-- A cycle evaluator that knows the cycle `1h` and fails on every other cycle, returning the
zero instant with its error. -/
def exEval : CycleEvaluator :=
  fun cyc _ anchor => if cyc = "1h" then (3600 + anchor.sum, none) else (0, some "bad cycle")

/-- Task A (identity 1, at address 0) is tracked and its next run time is 3600; task B
(identity 2, at address 1) depends on A only and has it resolved. -/
def exWorldAB : World Unit :=
  { heap := fun q =>
      if q = 0 then { exTask 1 with NextRunTime := 3600 }
      else { exTask 2 with RelTasksId := [1], RelTasks := [("1", some 0)], RelTaskCnt := 1 },
    sched := { Tasks := [0], TaskCnt := 1, Jobs := [] },
    db := (),
    calls := [] }

/-- A world with one untracked task (identity 3, at address 0), whose cycle is malformed and
whose next run time is 77, and an empty schedule. -/
def exWorldBadCycle : World Unit :=
  { heap := fun _ => { exTask 3 with TaskCyc := "every", NextRunTime := 77 },
    sched := { Tasks := [], TaskCnt := 0, Jobs := [] },
    db := (),
    calls := [] }

/-- Task Y (identity 2, at address 1, next run time 500) is tracked; task C (identity 3, at
address 0) is not tracked yet; no task with identity 1 exists. -/
def exWorldCY : World Unit :=
  { heap := fun q => if q = 1 then { exTask 2 with NextRunTime := 500 } else exTask 3,
    sched := { Tasks := [1], TaskCnt := 1, Jobs := [Job.mk 1 "job" [("2", some 1)] 1] },
    db := (),
    calls := [] }

/-- Task 1 (at address 0) depends on task 2 (at address 1); both are tracked and both belong
to job 1. -/
def exWorldTracked : World Unit :=
  { heap := fun q =>
      if q = 0 then
        { exTask 1 with RelTasksId := [2], RelTasks := [("2", some 1)], RelTaskCnt := 1 }
      else exTask 2,
    sched := { Tasks := [1, 0], TaskCnt := 2,
               Jobs := [Job.mk 1 "job" [("1", some 0), ("2", some 1)] 2] },
    db := (),
    calls := [] }

/-- The world `exWorldTracked` after a `Refresh` of task 1 in which the base reload and the
job-level removal failed. -/
def exWorldHalfRemoved : World Unit :=
  (Task.Refresh exGatewayJobFails exWorldTracked 0).world?.getD exWorldTracked

/-- The world `exWorldTracked` after the base reload of task 1 failed and the removal branch of
`Refresh` took the task out of the schedule and out of its job. -/
def exWorldRemoved : World Unit :=
  (refreshRemove (exGatewayNoRow [2]) (exWorldTracked.getTask (exGatewayNoRow [2]) 0).1
    1).world?.getD exWorldTracked

/-- Task 3 (at address 0), not tracked, with one parameter and one dependency id, 1, that was
not resolved: the entry under `"1"` is nil. -/
def exWorldNilDep : World Unit :=
  { heap := fun _ =>
      { exTask 3 with Param := ["a"], RelTasksId := [1], RelTasks := [("1", none)] },
    sched := { Tasks := [], TaskCnt := 0, Jobs := [Job.mk 1 "job" [] 0] },
    db := (),
    calls := [] }

/-! ## Vocabulary of the statements -/

/-- The dependency state of a task: `RelTasksId`, `RelTasks` and `RelTaskCnt`. -/
def Task.deps (t : Task) : List Int × List (String × Option Ptr) × Int :=
  (t.RelTasksId, t.RelTasks, t.RelTaskCnt)

/-- The task `t` with another dependency state. -/
def Task.withDeps (t : Task) (a : List Int) (b : List (String × Option Ptr)) (c : Int) : Task :=
  { t with RelTasksId := a, RelTasks := b, RelTaskCnt := c }

/-- A persistence operation of a plan: the call it is recorded as and what it does to the
store. -/
abbrev Step (σ : Type) := Call × (σ → σ × Option String)

/-- Issue the steps of a plan in order, up to and including the first one that fails: the calls
issued, the store they leave and the error of the failing step, `none` when every step
succeeded. -/
def runPlan {σ : Type} : List (Step σ) → σ → List Call × σ × Option String
  | [], db => ([], db, none)
  | s :: rest, db =>
    match (s.2 db).2 with
    | some e => ([s.1], (s.2 db).1, some e)
    | none => (s.1 :: (runPlan rest (s.2 db).1).1, (runPlan rest (s.2 db).1).2)

/-- The state `w` after the calls of a run were issued: they are recorded and the store is the
one they leave. -/
def World.after {σ : Type} (w : World σ) (r : List Call × σ × Option String) : World σ :=
  { w with db := r.2.1, calls := w.calls ++ r.1 }

/-- The order of deletion that the doc comment of `Delete` names: the parameters, the
dependency relation of every id of `RelTasksId` in sequence order, the job relation, the base
row. -/
def deletePlan {σ : Type} (gw : Gateway σ) (p : Ptr) (t : Task) : List (Step σ) :=
  [(Call.delParam p, fun db => gw.delParam db t)]
    ++ t.RelTasksId.map (fun rid => (Call.deleteRelTask p rid, fun db => gw.deleteRelTask db t rid))
    ++ [(Call.deleteJobTaskRel p, fun db => gw.deleteJobTaskRel db t),
        (Call.deleteTask p, fun db => gw.deleteTask db t)]

/-- The order of insertion that the doc comment of `AddTask` names, for a dependency map
`rel` of live tasks with the identities `ids`: the base row, the job relation, one dependency
relation for every entry, one row for every parameter in the order of `Param`. -/
def addPlan {σ : Type} (gw : Gateway σ) (p : Ptr) (t : Task) (ids : List Int) : List (Step σ) :=
  [(Call.add p, fun db => gw.add db t), (Call.addRelJob p, fun db => gw.addRelJob db t)]
    ++ ids.map (fun id => (Call.addRelTask p id, fun db => gw.addRelTask db t id))
    ++ t.Param.map (fun a => (Call.addParam p a, fun db => gw.addParam db t a))

/-- The identities read through the values of a dependency map, `none` when one value is
nil. -/
def relIds (heap : Ptr → Task) : List (String × Option Ptr) → Option (List Int)
  | [] => some []
  | (_, none) :: _ => none
  | (_, some d) :: rest => (relIds heap rest).map (fun l => (heap d).Id :: l)

/-! ## Decimal strings -/

theorem digitVal_digitChar (k : Nat) (h : k < 10) : digitVal (Nat.digitChar k) = k := by
  interval_cases k <;> rfl

theorem digitChar_ne_minus (k : Nat) (h : k < 10) : Nat.digitChar k ≠ '-' := by
  interval_cases k <;> decide

theorem toDigitsCore_append (fuel : Nat) : ∀ (n : Nat) (ds : List Char),
    Nat.toDigitsCore 10 fuel n ds = Nat.toDigitsCore 10 fuel n [] ++ ds := by
  induction fuel with
  | zero => intro n ds; simp [Nat.toDigitsCore]
  | succ f ih =>
    intro n ds
    simp only [Nat.toDigitsCore]
    split
    · simp
    · rw [ih (n / 10) (Nat.digitChar (n % 10) :: ds), ih (n / 10) [Nat.digitChar (n % 10)]]
      simp

theorem decVal_toDigitsCore (fuel : Nat) : ∀ n : Nat, n < fuel →
    decVal (Nat.toDigitsCore 10 fuel n []) = n := by
  induction fuel with
  | zero => intro n h; omega
  | succ f ih =>
    intro n h
    simp only [Nat.toDigitsCore]
    split
    · rename_i h0
      have hn : n < 10 := by omega
      simp [decVal, Nat.mod_eq_of_lt hn, digitVal_digitChar n hn]
    · rename_i h0
      rw [toDigitsCore_append]
      have hlt : n / 10 < f := by omega
      have := ih (n / 10) hlt
      simp only [decVal, List.foldl_append, List.foldl_cons, List.foldl_nil] at this ⊢
      rw [this, digitVal_digitChar (n % 10) (Nat.mod_lt _ (by decide))]
      omega

theorem minus_not_mem_toDigitsCore (fuel : Nat) : ∀ (n : Nat) (ds : List Char),
    '-' ∈ Nat.toDigitsCore 10 fuel n ds → '-' ∈ ds := by
  induction fuel with
  | zero => intro n ds h; simpa [Nat.toDigitsCore] using h
  | succ f ih =>
    intro n ds h
    simp only [Nat.toDigitsCore] at h
    have hd : '-' ≠ Nat.digitChar (n % 10) :=
      fun e => digitChar_ne_minus (n % 10) (Nat.mod_lt _ (by decide)) e.symm
    split at h
    · simpa [hd] using h
    · have := ih _ _ h
      simpa [hd] using this

theorem natRepr_injective (a b : Nat) (h : Nat.repr a = Nat.repr b) : a = b := by
  have h1 : Nat.toDigits 10 a = Nat.toDigits 10 b := by
    have := congrArg String.data h
    simpa [Nat.repr, List.asString] using this
  have := congrArg decVal h1
  simpa [Nat.toDigits, decVal_toDigitsCore] using this

/-- Distinct integers have distinct decimal strings. -/
theorem FormatInt_injective (a b : Int) (h : FormatInt a = FormatInt b) : a = b := by
  unfold FormatInt at h
  cases a with
  | ofNat m =>
    cases b with
    | ofNat n =>
      have : Nat.repr m = Nat.repr n := h
      rw [natRepr_injective m n this]
    | negSucc n =>
      exfalso
      have h0 : Nat.repr m = "-" ++ Nat.repr (n + 1) := h
      have h1 := congrArg String.data h0
      simp only [Nat.repr, List.asString, String.data_append] at h1
      have : '-' ∈ Nat.toDigits 10 m := by rw [h1]; simp
      exact absurd (minus_not_mem_toDigitsCore _ _ _ this) (by simp)
  | negSucc m =>
    cases b with
    | ofNat n =>
      exfalso
      have h0 : "-" ++ Nat.repr (m + 1) = Nat.repr n := h
      have h1 := congrArg String.data h0
      simp only [Nat.repr, List.asString, String.data_append] at h1
      have : '-' ∈ Nat.toDigits 10 n := by rw [← h1]; simp
      exact absurd (minus_not_mem_toDigitsCore _ _ _ this) (by simp)
    | negSucc n =>
      have h0 : "-" ++ Nat.repr (m + 1) = "-" ++ Nat.repr (n + 1) := h
      have h1 := congrArg String.data h0
      simp only [String.data_append, List.append_cancel_left_eq] at h1
      have h2 : Nat.repr (m + 1) = Nat.repr (n + 1) := String.ext h1
      have := natRepr_injective _ _ h2
      have : m = n := by omega
      rw [this]

/-! ## Maps -/

theorem mapGet_mapSet {β : Type} (m : List (String × β)) (k : String) (v : β) (k1 : String) :
    mapGet (mapSet m k v) k1 = if k = k1 then some v else mapGet m k1 := by
  induction m with
  | nil => simp [mapSet, mapGet]
  | cons e rest ih =>
    obtain ⟨k0, v0⟩ := e
    by_cases h0 : k0 = k
    · subst h0
      by_cases h1 : k0 = k1 <;> simp [mapSet, mapGet, h1]
    · by_cases h1 : k0 = k1
      · subst h1
        have : ¬ k = k0 := fun e => h0 e.symm
        simp [mapSet, mapGet, h0, this]
      · simp [mapSet, mapGet, h0, h1, ih]

theorem mapSet_length_of_absent {β : Type} (m : List (String × β)) (k : String) (v : β)
    (h : mapGet m k = none) : (mapSet m k v).length = m.length + 1 := by
  induction m with
  | nil => simp [mapSet]
  | cons e rest ih =>
    obtain ⟨k0, v0⟩ := e
    by_cases h0 : k0 = k
    · simp [mapGet, h0] at h
    · simp only [mapGet, h0, if_false] at h
      simp [mapSet, h0, ih h]

theorem mapSet_length_of_present {β : Type} (m : List (String × β)) (k : String) (v : β)
    (h : (mapGet m k).isSome) : (mapSet m k v).length = m.length := by
  induction m with
  | nil => simp [mapGet] at h
  | cons e rest ih =>
    obtain ⟨k0, v0⟩ := e
    by_cases h0 : k0 = k
    · simp [mapSet, h0]
    · simp only [mapGet, h0, if_false] at h
      simp [mapSet, h0, ih h]

/-! ## Dependency resolution -/

theorem GetTaskById_congr (s : Schedule) (h1 h2 : Ptr → Task)
    (h : ∀ q, (h1 q).Id = (h2 q).Id) (id : Int) :
    s.GetTaskById h1 id = s.GetTaskById h2 id := by
  unfold Schedule.GetTaskById
  congr 1
  funext q
  rw [h q]

theorem resolvedMap_other (f : Int → Option Ptr) (k : String) :
    ∀ (ids : List Int) (m : List (String × Option Ptr)),
      (∀ id ∈ ids, FormatInt id ≠ k) → mapGet (resolvedMap f ids m) k = mapGet m k := by
  intro ids
  induction ids with
  | nil => intro m _; rfl
  | cons a l ih =>
    intro m h
    have ha : FormatInt a ≠ k := h a (List.mem_cons_self a l)
    have hl : ∀ id ∈ l, FormatInt id ≠ k := fun id hid => h id (List.mem_cons_of_mem a hid)
    show mapGet (resolvedMap f l (mapSet m (FormatInt a) (f a))) k = mapGet m k
    rw [ih _ hl, mapGet_mapSet, if_neg ha]

theorem resolvedMap_mem (f : Int → Option Ptr) (id : Int) :
    ∀ (ids : List Int) (m : List (String × Option Ptr)),
      id ∈ ids → mapGet (resolvedMap f ids m) (FormatInt id) = some (f id) := by
  intro ids
  induction ids with
  | nil => intro m h; simp at h
  | cons a l ih =>
    intro m h
    show mapGet (resolvedMap f l (mapSet m (FormatInt a) (f a))) (FormatInt id) = some (f id)
    by_cases hl : id ∈ l
    · exact ih _ hl
    · have ha : id = a := by
        rcases List.mem_cons.mp h with h1 | h1
        · exact h1
        · exact absurd h1 hl
      subst ha
      have hne : ∀ x ∈ l, FormatInt x ≠ FormatInt id := by
        intro x hx e
        exact hl (FormatInt_injective x id e ▸ hx)
      rw [resolvedMap_other f (FormatInt id) l _ hne, mapGet_mapSet, if_pos rfl]

theorem resolvedMap_keys (f : Int → Option Ptr) (ids : List Int) (k : String) :
    (mapGet (resolvedMap f ids []) k).isSome ↔ ∃ id ∈ ids, FormatInt id = k := by
  constructor
  · intro h
    by_contra hno
    have hne : ∀ id ∈ ids, FormatInt id ≠ k := fun id hid e => hno ⟨id, hid, e⟩
    rw [resolvedMap_other f k ids [] hne] at h
    simp [mapGet] at h
  · rintro ⟨id, hid, rfl⟩
    rw [resolvedMap_mem f id ids [] hid]
    rfl

theorem relTasksLoop_spec {σ : Type} (p : Ptr) (f : Int → Option Ptr) :
    ∀ (ids : List Int) (w : World σ), (∀ id, w.sched.GetTaskById w.heap id = f id) →
      (relTasksLoop p ids w).sched = w.sched ∧ (relTasksLoop p ids w).db = w.db ∧
      (∀ q, q ≠ p → (relTasksLoop p ids w).heap q = w.heap q) ∧
      (relTasksLoop p ids w).heap p =
        { w.heap p with
          RelTasks := resolvedMap f ids (w.heap p).RelTasks,
          RelTaskCnt := (w.heap p).RelTaskCnt + (ids.countP (fun id => (f id).isSome) : Nat) } := by
  intro ids
  induction ids with
  | nil => intro w _; simp [relTasksLoop, resolvedMap]
  | cons a l ih =>
    intro w hf
    have hfa := hf a
    cases hfa0 : f a with
    | none =>
      rw [hfa0] at hfa
      have hw : ∀ id, (((w.setTask p { w.heap p with
          RelTasks := mapSet (w.heap p).RelTasks (FormatInt a) none }).record
          (Call.warning (relTaskWarning (w.heap p).Id (FormatInt a)))).sched.GetTaskById
          ((w.setTask p { w.heap p with
          RelTasks := mapSet (w.heap p).RelTasks (FormatInt a) none }).record
          (Call.warning (relTaskWarning (w.heap p).Id (FormatInt a)))).heap id) = f id := by
        intro id
        rw [← hf id]
        apply GetTaskById_congr
        intro q
        by_cases hq : q = p <;> simp [World.setTask, World.record, hq]
      have := ih _ hw
      simp only [relTasksLoop, hfa, World.setTask, World.record, if_true] at this ⊢
      obtain ⟨h1, h2, h3, h4⟩ := this
      refine ⟨h1, h2, ?_, ?_⟩
      · intro q hq
        rw [h3 q hq]; simp [hq]
      · rw [h4]; simp [resolvedMap, hfa0]
    | some d =>
      rw [hfa0] at hfa
      have hw : ∀ id, (((w.setTask p { w.heap p with
          RelTasks := mapSet (w.heap p).RelTasks (FormatInt a) (some d) }).setTask p
          { w.heap p with
            RelTasks := mapSet (w.heap p).RelTasks (FormatInt a) (some d),
            RelTaskCnt := (w.heap p).RelTaskCnt + 1 }).sched.GetTaskById
          ((w.setTask p { w.heap p with
          RelTasks := mapSet (w.heap p).RelTasks (FormatInt a) (some d) }).setTask p
          { w.heap p with
            RelTasks := mapSet (w.heap p).RelTasks (FormatInt a) (some d),
            RelTaskCnt := (w.heap p).RelTaskCnt + 1 }).heap id) = f id := by
        intro id
        rw [← hf id]
        apply GetTaskById_congr
        intro q
        by_cases hq : q = p <;> simp [World.setTask, hq]
      have := ih _ hw
      simp only [relTasksLoop, hfa, World.setTask, if_true] at this ⊢
      obtain ⟨h1, h2, h3, h4⟩ := this
      refine ⟨h1, h2, ?_, ?_⟩
      · intro q hq
        rw [h3 q hq]; simp [hq]
      · rw [h4]; simp [resolvedMap, hfa0]; omega

theorem resolveRelTasks_spec {σ : Type} (gw : Gateway σ) (w : World σ) (p : Ptr) :
    (resolveRelTasks gw w p).sched = w.sched ∧
    (∀ q, q ≠ p → (resolveRelTasks gw w p).heap q = w.heap q) ∧
    (resolveRelTasks gw w p).heap p =
      { w.heap p with
        RelTasksId := (gw.getRelTaskId w.db (w.heap p).resetRel).2.1,
        RelTasks := resolvedMap (w.sched.GetTaskById w.heap)
          (gw.getRelTaskId w.db (w.heap p).resetRel).2.1 [],
        RelTaskCnt :=
          (resolvedCount w.sched w.heap (gw.getRelTaskId w.db (w.heap p).resetRel).2.1 : Nat) } := by
  have hf : ∀ id, (((w.setTask p (w.heap p).resetRel).getRelTaskId gw p).1).sched.GetTaskById
      (((w.setTask p (w.heap p).resetRel).getRelTaskId gw p).1).heap id
        = w.sched.GetTaskById w.heap id := by
    intro id
    apply GetTaskById_congr
    intro q
    by_cases hq : q = p <;>
      simp [World.getRelTaskId, World.setTask, World.record, Task.resetRel, hq]
  obtain ⟨h1, _, h3, h4⟩ := relTasksLoop_spec p (w.sched.GetTaskById w.heap)
    ((((w.setTask p (w.heap p).resetRel).getRelTaskId gw p).1).heap p).RelTasksId _ hf
  refine ⟨?_, ?_, ?_⟩
  · unfold resolveRelTasks
    rw [h1]; simp [World.getRelTaskId, World.setTask, World.record]
  · intro q hq
    unfold resolveRelTasks
    rw [h3 q hq]; simp [World.getRelTaskId, World.setTask, World.record, hq]
  · unfold resolveRelTasks
    rw [h4]
    simp [World.getRelTaskId, World.setTask, World.record, resolvedCount, Task.resetRel,
      resolvedMap]

theorem resolvedCount_le (s : Schedule) (heap : Ptr → Task) (ids : List Int) :
    resolvedCount s heap ids ≤ ids.length :=
  List.countP_le_length _

theorem refreshInsert_heap {σ : Type} (w : World σ) (p : Ptr) :
    (refreshInsert w p).1.heap = w.heap := by
  unfold refreshInsert
  simp only []
  split <;> rfl

theorem refreshRest_heap {σ : Type} (gw : Gateway σ) (w : World σ) (p : Ptr) (i : Int)
    (h2 : (w.getTaskAttr gw p).2 = none)
    (h3 : ((w.getTaskAttr gw p).1.getTaskParam gw p).2 = none) :
    (refreshRest gw w p i).1.heap = (resolveRelTasks gw (afterLoads gw w p) p).heap := by
  unfold refreshRest
  simp only [h2, h3, afterLoads]
  split
  · rw [refreshInsert_heap]
  · rfl

theorem NextTime_of_entry {σ : Type} (cd : CycleEvaluator) (w : World σ) (p d : Ptr)
    (rtid : Int) (hcnt : (w.heap p).RelTaskCnt ≠ 0)
    (hid : (w.heap p).RelTasksId.head? = some rtid)
    (hd : mapAt (w.heap p).RelTasks (FormatInt rtid) = some d) :
    Task.NextTime cd w p =
      Result.ret (w.setTask p { w.heap p with NextRunTime := (w.heap d).NextRunTime }) none := by
  cases hl : (w.heap p).RelTasksId with
  | nil => rw [hl] at hid; simp at hid
  | cons a l =>
    rw [hl] at hid
    have ha : a = rtid := by simpa using hid
    subst ha
    simp only [Task.NextTime, hcnt, if_false, hl, hd]

theorem InitTask_loads_ok {σ : Type} (gw : Gateway σ) (w : World σ) (p : Ptr)
    (h1 : (w.getTask gw p).2 = none) (h2 : tailLoadsOk gw (w.getTask gw p).1 p) :
    Task.InitTask gw w p =
      ({ resolveRelTasks gw (afterLoads gw (w.getTask gw p).1 p) p with
          sched := (resolveRelTasks gw (afterLoads gw (w.getTask gw p).1 p) p).sched.addTaskList p },
        none) := by
  obtain ⟨h2a, h2b⟩ := h2
  unfold Task.InitTask
  simp only [h1, h2a, h2b, afterLoads]

theorem Refresh_reload_ok {σ : Type} (gw : Gateway σ) (w : World σ) (p : Ptr)
    (h1 : (w.getTask gw p).2 = none) :
    Task.Refresh gw w p =
      Result.ret
        (refreshRest gw (w.getTask gw p).1 p (scanTasks w.heap (w.heap p).Id w.sched.Tasks 0 (-1))).1
        (refreshRest gw (w.getTask gw p).1 p
          (scanTasks w.heap (w.heap p).Id w.sched.Tasks 0 (-1))).2 := by
  unfold Task.Refresh
  simp only [h1]

theorem Refresh_reload_failed {σ : Type} (gw : Gateway σ) (w w2 : World σ) (p : Ptr)
    (h1 : (w.getTask gw p).2.isSome)
    (h2 : refreshRemove gw (w.getTask gw p).1 (scanTasks w.heap (w.heap p).Id w.sched.Tasks 0 (-1))
      = Result.ret w2 none) :
    Task.Refresh gw w p =
      Result.ret
        (refreshRest gw w2 p (scanTasks w.heap (w.heap p).Id w.sched.Tasks 0 (-1))).1
        (refreshRest gw w2 p (scanTasks w.heap (w.heap p).Id w.sched.Tasks 0 (-1))).2 := by
  unfold Task.Refresh
  cases h : (w.getTask gw p).2 with
  | none => rw [h] at h1; simp at h1
  | some e => simp only [h2, h]

theorem resolveRelTasks_count {σ : Type} (gw : Gateway σ) (w : World σ) (p : Ptr) :
    ((resolveRelTasks gw w p).heap p).RelTaskCnt =
        resolvedCount w.sched w.heap ((resolveRelTasks gw w p).heap p).RelTasksId ∧
    ((resolveRelTasks gw w p).heap p).RelTaskCnt
      ≤ ((resolveRelTasks gw w p).heap p).RelTasksId.length := by
  obtain ⟨_, _, h⟩ := resolveRelTasks_spec gw w p
  rw [h]
  refine ⟨rfl, ?_⟩
  show ((resolvedCount _ _ _ : Nat) : Int) ≤ _
  exact_mod_cast resolvedCount_le _ _ _

theorem InitTask_two_ids {σ : Type} (gw : Gateway σ) (w : World σ) (p : Ptr) (a b : Int)
    (h1 : (w.getTask gw p).2 = none) (h2 : tailLoadsOk gw (w.getTask gw p).1 p)
    (hids : (gw.getRelTaskId (afterLoads gw (w.getTask gw p).1 p).db
      ((afterLoads gw (w.getTask gw p).1 p).heap p).resetRel).2.1 = [a, b]) :
    (Task.InitTask gw w p).2 = none ∧
    ((Task.InitTask gw w p).1.heap p).RelTasksId = [a, b] ∧
    ((Task.InitTask gw w p).1.heap p).RelTaskCnt =
      resolvedCount (afterLoads gw (w.getTask gw p).1 p).sched
        (afterLoads gw (w.getTask gw p).1 p).heap [a, b] ∧
    mapGet ((Task.InitTask gw w p).1.heap p).RelTasks (FormatInt a) =
      some ((afterLoads gw (w.getTask gw p).1 p).sched.GetTaskById
        (afterLoads gw (w.getTask gw p).1 p).heap a) ∧
    mapGet ((Task.InitTask gw w p).1.heap p).RelTasks (FormatInt b) =
      some ((afterLoads gw (w.getTask gw p).1 p).sched.GetTaskById
        (afterLoads gw (w.getTask gw p).1 p).heap b) := by
  rw [InitTask_loads_ok gw w p h1 h2]
  obtain ⟨_, _, h⟩ := resolveRelTasks_spec gw (afterLoads gw (w.getTask gw p).1 p) p
  simp only []
  rw [h, hids]
  refine ⟨trivial, rfl, rfl, ?_, ?_⟩
  · exact resolvedMap_mem _ a [a, b] [] (by simp)
  · exact resolvedMap_mem _ b [a, b] [] (by simp)

/-! ## The identity scan and the two branches of `Refresh` -/

theorem scanTasks_none (heap : Ptr → Task) (id : Int) :
    ∀ (l : List Ptr) (k i : Int), (∀ r ∈ l, (heap r).Id ≠ id) → scanTasks heap id l k i = i := by
  intro l
  induction l with
  | nil => intro k i _; rfl
  | cons a l ih =>
    intro k i h
    have ha : (heap a).Id ≠ id := h a (List.mem_cons_self a l)
    simp only [scanTasks, ha, if_false]
    exact ih _ _ (fun r hr => h r (List.mem_cons_of_mem a hr))

theorem scanTasks_append (heap : Ptr → Task) (id : Int) :
    ∀ (l1 l2 : List Ptr) (k i : Int),
      scanTasks heap id (l1 ++ l2) k i =
        scanTasks heap id l2 (k + l1.length) (scanTasks heap id l1 k i) := by
  intro l1
  induction l1 with
  | nil => intro l2 k i; simp [scanTasks]
  | cons a l ih =>
    intro l2 k i
    simp only [List.cons_append, scanTasks, List.length_cons]
    show scanTasks heap id (l ++ l2) _ _ = _
    rw [ih]
    have e : k + 1 + (l.length : Int) = k + ((l.length + 1 : Nat) : Int) := by
      push_cast
      ring
    rw [e]

theorem scanTasks_unique (heap : Ptr → Task) (id : Int) (pre post : List Ptr) (q : Ptr)
    (hq : (heap q).Id = id) (hpost : ∀ r ∈ post, (heap r).Id ≠ id) :
    scanTasks heap id (pre ++ q :: post) 0 (-1) = (pre.length : Int) := by
  rw [scanTasks_append]
  simp only [scanTasks, hq, if_true]
  rw [scanTasks_none heap id post _ _ hpost]
  simp

theorem GetJobById_lt (s : Schedule) (id : Int) (k : Nat) (h : s.GetJobById id = Except.ok k) :
    k < s.Jobs.length := by
  unfold Schedule.GetJobById at h
  cases hf : s.Jobs.findIdx? (fun j => decide (j.Id = id)) with
  | none => rw [hf] at h; simp at h
  | some k1 =>
    rw [hf] at h
    have hk : k1 = k := by simpa using h
    subst hk
    exact (List.findIdx?_eq_some_iff_findIdx_eq.mp hf).1

theorem job_setJob {σ : Type} (w : World σ) (k : Nat) (j : Job) (h : k < w.sched.Jobs.length) :
    (w.setJob k j).job k = j := by
  simp [World.job, World.setJob, List.getD_eq_getElem?_getD, h]

theorem refreshRest_tracked {σ : Type} (gw : Gateway σ) (w : World σ) (p : Ptr) (i : Int)
    (hi : i ≠ -1) :
    (refreshRest gw w p i).1.sched = w.sched ∧
    (∀ r, r ≠ p → (refreshRest gw w p i).1.heap r = w.heap r) := by
  unfold refreshRest
  simp only []
  split
  · refine ⟨by simp [World.getTaskAttr, World.setTask, World.record], ?_⟩
    intro r hr
    simp [World.getTaskAttr, World.setTask, World.record, hr]
  · split
    · refine ⟨by simp [World.getTaskParam, World.getTaskAttr, World.setTask, World.record], ?_⟩
      intro r hr
      simp [World.getTaskParam, World.getTaskAttr, World.setTask, World.record, hr]
    · obtain ⟨e1, e2, _⟩ := resolveRelTasks_spec gw
        ((w.getTaskAttr gw p).1.getTaskParam gw p).1 p
      rw [if_neg hi]
      refine ⟨?_, ?_⟩
      · simp only []
        rw [e1]
        simp [World.getTaskParam, World.getTaskAttr, World.setTask, World.record]
      · intro r hr
        simp only []
        rw [e2 r hr]
        simp [World.getTaskParam, World.getTaskAttr, World.setTask, World.record, hr]

theorem refreshRemove_at {σ : Type} (gw : Gateway σ) (w : World σ) (pre post : List Ptr)
    (q : Ptr) (k : Nat) (hT : w.sched.Tasks = pre ++ q :: post)
    (hjob : w.sched.GetJobById (w.heap q).JobId = Except.ok k)
    (hdel : (gw.jobDeleteTask w.db (w.job k).Id (w.heap q).Id).2 = none) :
    ∃ w2, refreshRemove gw w (pre.length : Int) = Result.ret w2 none ∧
      w2.heap = w.heap ∧ w2.sched.Tasks = pre ++ post ∧
      w2.sched.TaskCnt = (pre ++ post).length ∧
      (w2.job k).TaskCnt = (w.job k).TaskCnt - 1 ∧
      (w2.job k).Tasks = mapDelete (w.job k).Tasks (FormatInt (w.heap q).Id) := by
  have hk := GetJobById_lt _ _ _ hjob
  have hjob1 : ∀ (ts : List Ptr) (c : Int),
      Schedule.GetJobById { w.sched with Tasks := ts, TaskCnt := c } (w.heap q).JobId
        = Except.ok k := by
    intro ts c
    simpa [Schedule.GetJobById] using hjob
  have hjobk : ∀ (ts : List Ptr) (c : Int),
      World.job { w with sched := { w.sched with Tasks := ts, TaskCnt := c } } k = w.job k := by
    intro ts c; rfl
  have hneg : ¬ ((pre.length : Int) < 0) := by omega
  have hget : w.sched.Tasks.get? (pre.length : Int).toNat = some q := by
    simp only [List.get?_eq_getElem?, hT, Int.toNat_ofNat]
    rw [List.getElem?_append_right (le_refl _)]
    simp
  have htake : List.take (pre.length : Int).toNat w.sched.Tasks ++
      List.drop ((pre.length : Int).toNat + 1) w.sched.Tasks = pre ++ post := by
    simp [hT]
  unfold refreshRemove
  simp only [hneg, if_false, hget, htake, hjob1, hjobk, Job.DeleteTask, hdel]
  refine ⟨_, rfl, rfl, rfl, rfl, ?_, ?_⟩
  · rw [show ∀ (w0 : World σ) (c : Call) (d : σ), World.job { w0.record c with db := d } k
        = w0.job k from fun _ _ _ => rfl]
    rw [job_setJob _ _ _ (by simpa using hk)]
  · rw [show ∀ (w0 : World σ) (c : Call) (d : σ), World.job { w0.record c with db := d } k
        = w0.job k from fun _ _ _ => rfl]
    rw [job_setJob _ _ _ (by simpa using hk)]

theorem refreshInsert_found {σ : Type} (w : World σ) (p : Ptr) (k : Nat)
    (hjob : w.sched.GetJobById (w.heap p).JobId = Except.ok k) :
    (refreshInsert w p).2 = none ∧
    (refreshInsert w p).1.sched.Tasks = w.sched.Tasks ++ [p] ∧
    (refreshInsert w p).1.sched.TaskCnt = (w.sched.Tasks ++ [p]).length ∧
    ((refreshInsert w p).1.job k).Tasks =
      mapSet (w.job k).Tasks (FormatInt (w.heap p).Id) (some p) ∧
    ((refreshInsert w p).1.job k).TaskCnt = (w.job k).TaskCnt + 1 := by
  have hk := GetJobById_lt _ _ _ hjob
  have hjob1 : ∀ (ts : List Ptr) (c : Int),
      Schedule.GetJobById { w.sched with Tasks := ts, TaskCnt := c } (w.heap p).JobId
        = Except.ok k := by
    intro ts c
    simpa [Schedule.GetJobById] using hjob
  have hjobk : ∀ (ts : List Ptr) (c : Int),
      World.job { w with sched := { w.sched with Tasks := ts, TaskCnt := c } } k = w.job k := by
    intro ts c; rfl
  unfold refreshInsert
  simp only [Schedule.addTaskList, hjob1, hjobk]
  refine ⟨trivial, rfl, rfl, ?_, ?_⟩
  · rw [job_setJob _ _ _ (by simpa using hk)]
  · rw [job_setJob _ _ _ (by simpa using hk)]

/-! ## Plans of persistence operations -/

theorem runPlan_in_order {σ : Type} : ∀ (plan : List (Step σ)) (db : σ),
    (runPlan plan db).1 <+: plan.map Prod.fst := by
  intro plan
  induction plan with
  | nil => intro db; simp [runPlan]
  | cons s rest ih =>
    intro db
    cases h : (s.2 db).2 with
    | some e =>
      simp only [runPlan, h, List.map_cons]
      exact List.prefix_iff_eq_append.mpr (by simp)
    | none =>
      simp only [runPlan, h, List.map_cons]
      exact (List.prefix_cons_inj s.1).mpr (ih _)

theorem runPlan_none {σ : Type} : ∀ (plan : List (Step σ)) (db : σ),
    (runPlan plan db).2.2 = none → (runPlan plan db).1 = plan.map Prod.fst := by
  intro plan
  induction plan with
  | nil => intro db _; simp [runPlan]
  | cons s rest ih =>
    intro db
    cases h : (s.2 db).2 with
    | some e => simp [runPlan, h]
    | none =>
      simp only [runPlan, h, List.map_cons]
      intro hn
      rw [ih _ hn]

theorem runPlan_append {σ : Type} (b : List (Step σ)) : ∀ (a : List (Step σ)) (db : σ),
    runPlan (a ++ b) db =
      match (runPlan a db).2.2 with
      | some _ => runPlan a db
      | none => ((runPlan a db).1 ++ (runPlan b (runPlan a db).2.1).1,
          (runPlan b (runPlan a db).2.1).2) := by
  intro a
  induction a with
  | nil => intro db; simp [runPlan]
  | cons s rest ih =>
    intro db
    cases h : (s.2 db).2 with
    | some e => simp [runPlan, h]
    | none =>
      simp only [List.cons_append, runPlan, h]
      have e := ih (s.2 db).1
      change runPlan (rest.append b) (s.2 db).1 = _ at e
      rw [e]
      cases h2 : (runPlan rest (s.2 db).1).2.2 <;> simp

theorem after_after {σ : Type} (w : World σ) (c1 : List Call) (d1 : σ) (e1 : Option String)
    (r : List Call × σ × Option String) :
    (w.after (c1, d1, e1)).after r = w.after (c1 ++ r.1, r.2) := by
  simp [World.after]

theorem deleteRelTasksLoop_run {σ : Type} (gw : Gateway σ) (p : Ptr) :
    ∀ (ids : List Int) (w : World σ),
      (deleteRelTasksLoop gw p ids w).1 = w.after (runPlan (ids.map (fun rid =>
        ((Call.deleteRelTask p rid, fun db => gw.deleteRelTask db (w.heap p) rid) : Step σ))) w.db)
      ∧ ((deleteRelTasksLoop gw p ids w).2 = none ↔ (runPlan (ids.map (fun rid =>
        ((Call.deleteRelTask p rid, fun db => gw.deleteRelTask db (w.heap p) rid) : Step σ)))
          w.db).2.2 = none) := by
  intro ids
  induction ids with
  | nil => intro w; simp [deleteRelTasksLoop, runPlan, World.after]
  | cons a l ih =>
    intro w
    cases h : (gw.deleteRelTask w.db (w.heap p) a).2 with
    | some e =>
      simp [deleteRelTasksLoop, Task.DeleteRelTask, World.store, World.record, runPlan, h,
        World.after]
    | none =>
      have := ih ({ w.record (Call.deleteRelTask p a) with
        db := (gw.deleteRelTask w.db (w.heap p) a).1 })
      simp only [deleteRelTasksLoop, Task.DeleteRelTask, World.store, h, List.map_cons, runPlan]
      refine ⟨?_, ?_⟩
      · rw [this.1]
        simp [World.after, World.record]
      · rw [this.2]
        simp [World.record]

theorem addParamLoop_run {σ : Type} (gw : Gateway σ) (op : String) (p : Ptr) :
    ∀ (ps : List String) (w : World σ),
      (addParamLoop gw op p ps w).1 = w.after (runPlan (ps.map (fun a =>
        ((Call.addParam p a, fun db => gw.addParam db (w.heap p) a) : Step σ))) w.db)
      ∧ ((addParamLoop gw op p ps w).2 = none ↔ (runPlan (ps.map (fun a =>
        ((Call.addParam p a, fun db => gw.addParam db (w.heap p) a) : Step σ))) w.db).2.2
          = none) := by
  intro ps
  induction ps with
  | nil => intro w; simp [addParamLoop, runPlan, World.after]
  | cons a l ih =>
    intro w
    cases h : (gw.addParam w.db (w.heap p) a).2 with
    | some e =>
      simp [addParamLoop, World.store, World.record, runPlan, h, World.after]
    | none =>
      have := ih ({ w.record (Call.addParam p a) with db := (gw.addParam w.db (w.heap p) a).1 })
      simp only [addParamLoop, World.store, h, List.map_cons, runPlan]
      refine ⟨?_, ?_⟩
      · rw [this.1]
        simp [World.after, World.record]
      · rw [this.2]
        simp [World.record]

theorem Delete_run {σ : Type} (gw : Gateway σ) (w : World σ) (p : Ptr) :
    (Task.Delete gw w p).1 = w.after (runPlan (deletePlan gw p (w.heap p)) w.db) ∧
    ((Task.Delete gw w p).2 = none ↔ (runPlan (deletePlan gw p (w.heap p)) w.db).2.2 = none) := by
  cases h1 : (gw.delParam w.db (w.heap p)).2 with
  | some e =>
    simp [Task.Delete, World.store, World.record, deletePlan, runPlan, h1, World.after]
  | none =>
    obtain ⟨l1, l2⟩ := deleteRelTasksLoop_run gw p (w.heap p).RelTasksId
      ({ w.record (Call.delParam p) with db := (gw.delParam w.db (w.heap p)).1 })
    have hp : deletePlan gw p (w.heap p) =
        (Call.delParam p, fun db => gw.delParam db (w.heap p)) ::
          ((w.heap p).RelTasksId.map (fun rid =>
            ((Call.deleteRelTask p rid, fun db => gw.deleteRelTask db (w.heap p) rid) : Step σ))
          ++ [(Call.deleteJobTaskRel p, fun db => gw.deleteJobTaskRel db (w.heap p)),
              (Call.deleteTask p, fun db => gw.deleteTask db (w.heap p))]) := by
      simp [deletePlan]
    rw [hp]
    simp only [runPlan, h1, runPlan_append]
    simp only [Task.Delete, World.store, h1]
    cases h2 : (deleteRelTasksLoop gw p (w.heap p).RelTasksId
      ({ w.record (Call.delParam p) with db := (gw.delParam w.db (w.heap p)).1 })).2 with
    | some e =>
      have hr := l2.not.mp (by rw [h2]; simp)
      obtain ⟨e2, he2⟩ := Option.ne_none_iff_exists'.mp hr
      simp only [World.record] at l1 he2 h2 ⊢
      simp only [h2, he2, l1]
      simp [World.after]
    | none =>
      have hr := l2.mp h2
      simp only [World.record] at l1 hr h2 ⊢
      simp only [h2, hr, l1]
      cases h3 : (gw.deleteJobTaskRel (runPlan ((w.heap p).RelTasksId.map (fun rid =>
          ((Call.deleteRelTask p rid, fun db => gw.deleteRelTask db (w.heap p) rid) : Step σ)))
          (gw.delParam w.db (w.heap p)).1).2.1 (w.heap p)).2 with
      | some e => simp [World.after, World.record, h3]
      | none =>
        cases h4 : (gw.deleteTask (gw.deleteJobTaskRel (runPlan ((w.heap p).RelTasksId.map
            (fun rid => ((Call.deleteRelTask p rid,
              fun db => gw.deleteRelTask db (w.heap p) rid) : Step σ)))
            (gw.delParam w.db (w.heap p)).1).2.1 (w.heap p)).1 (w.heap p)).2 with
        | some e => simp [World.after, World.record, h3, h4]
        | none => simp [World.after, World.record, h3, h4]

theorem addRelTasksLoop_run {σ : Type} (gw : Gateway σ) (p : Ptr) :
    ∀ (rel : List (String × Option Ptr)) (ids : List Int) (w : World σ),
      relIds w.heap rel = some ids →
      ∃ e, addRelTasksLoop gw p rel w = Result.ret (w.after (runPlan (ids.map (fun id =>
          ((Call.addRelTask p id, fun db => gw.addRelTask db (w.heap p) id) : Step σ))) w.db)) e
        ∧ (e = none ↔ (runPlan (ids.map (fun id =>
          ((Call.addRelTask p id, fun db => gw.addRelTask db (w.heap p) id) : Step σ)))
            w.db).2.2 = none) := by
  intro rel
  induction rel with
  | nil =>
    intro ids w h
    simp only [relIds, Option.some.injEq] at h
    subst h
    exact ⟨none, by simp [addRelTasksLoop, runPlan, World.after], by simp [runPlan]⟩
  | cons a l ih =>
    intro ids w h
    obtain ⟨k, v⟩ := a
    cases v with
    | none => simp [relIds] at h
    | some d =>
      simp only [relIds, Option.map_eq_some'] at h
      obtain ⟨ids1, h1, rfl⟩ := h
      cases hs : (gw.addRelTask w.db (w.heap p) (w.heap d).Id).2 with
      | some e =>
        exact ⟨some ("\n[t.AddTask] " ++ e ++ "."),
          by simp [addRelTasksLoop, World.store, World.record, runPlan, hs, World.after],
          by simp [runPlan, hs]⟩
      | none =>
        obtain ⟨e, he1, he2⟩ := ih ids1 ({ w.record (Call.addRelTask p (w.heap d).Id) with
          db := (gw.addRelTask w.db (w.heap p) (w.heap d).Id).1 }) h1
        refine ⟨e, ?_, ?_⟩
        · simp only [addRelTasksLoop, World.store, hs, List.map_cons, runPlan]
          rw [he1]
          simp [World.after, World.record]
        · rw [he2]
          simp [runPlan, hs, World.record]

theorem AddTask_run {σ : Type} (gw : Gateway σ) (w : World σ) (p : Ptr) (ids : List Int)
    (hrel : relIds w.heap (w.heap p).RelTasks = some ids) :
    ∃ e, Task.AddTask gw w p =
        Result.ret (w.after (runPlan (addPlan gw p (w.heap p) ids) w.db)) e ∧
      (e = none ↔ (runPlan (addPlan gw p (w.heap p) ids) w.db).2.2 = none) := by
  have hp : addPlan gw p (w.heap p) ids =
      (Call.add p, fun db => gw.add db (w.heap p)) ::
        (Call.addRelJob p, fun db => gw.addRelJob db (w.heap p)) ::
          (ids.map (fun id =>
            ((Call.addRelTask p id, fun db => gw.addRelTask db (w.heap p) id) : Step σ))
          ++ (w.heap p).Param.map (fun a =>
            ((Call.addParam p a, fun db => gw.addParam db (w.heap p) a) : Step σ))) := by
    simp [addPlan]
  rw [hp]
  cases h1 : (gw.add w.db (w.heap p)).2 with
  | some e =>
    exact ⟨some ("\n[t.AddTask] " ++ e ++ "."),
      by simp [Task.AddTask, World.store, World.record, runPlan, h1, World.after],
      by simp [runPlan, h1]⟩
  | none =>
    cases h2 : (gw.addRelJob (gw.add w.db (w.heap p)).1 (w.heap p)).2 with
    | some e =>
      exact ⟨some ("\n[t.AddTask] " ++ e ++ "."),
        by simp [Task.AddTask, World.store, World.record, runPlan, h1, h2, World.after],
        by simp [runPlan, h1, h2]⟩
    | none =>
      obtain ⟨e3, l1, l2⟩ := addRelTasksLoop_run gw p (w.heap p).RelTasks ids
        ({ ({ w.record (Call.add p) with db := (gw.add w.db (w.heap p)).1 } : World σ).record
            (Call.addRelJob p) with
          db := (gw.addRelJob (gw.add w.db (w.heap p)).1 (w.heap p)).1 }) hrel
      simp only [World.record] at l1 l2
      cases e3 with
      | some e =>
        have hr : (runPlan (ids.map (fun id =>
            ((Call.addRelTask p id, fun db => gw.addRelTask db (w.heap p) id) : Step σ)))
            (gw.addRelJob (gw.add w.db (w.heap p)).1 (w.heap p)).1).2.2 ≠ none :=
          fun hn => by simpa using l2.mpr hn
        obtain ⟨e2, he2⟩ := Option.ne_none_iff_exists'.mp hr
        refine ⟨some e, ?_, ?_⟩
        · simp only [Task.AddTask, World.store, World.record, h1, h2, l1, runPlan, runPlan_append,
            he2]
          simp [World.after]
        · simp [runPlan, h1, h2, runPlan_append, he2]
      | none =>
        have hr := l2.mp rfl
        obtain ⟨W3, hW3⟩ : ∃ W3 : World σ, W3 =
            ({ heap := w.heap, sched := w.sched,
               db := (gw.addRelJob (gw.add w.db (w.heap p)).1 (w.heap p)).1,
               calls := w.calls ++ [Call.add p] ++ [Call.addRelJob p] } : World σ).after
              (runPlan (ids.map (fun id =>
                ((Call.addRelTask p id, fun db => gw.addRelTask db (w.heap p) id) : Step σ)))
                (gw.addRelJob (gw.add w.db (w.heap p)).1 (w.heap p)).1) := ⟨_, rfl⟩
        rw [← hW3] at l1
        obtain ⟨q1, q2⟩ := addParamLoop_run gw "t.AddTask" p (w.heap p).Param W3
        have hh : W3.heap = w.heap := by rw [hW3]; rfl
        have hd : W3.db = (runPlan (ids.map (fun id =>
            ((Call.addRelTask p id, fun db => gw.addRelTask db (w.heap p) id) : Step σ)))
            (gw.addRelJob (gw.add w.db (w.heap p)).1 (w.heap p)).1).2.1 := by rw [hW3]; rfl
        rw [hh, hd] at q1 q2
        refine ⟨(addParamLoop gw "t.AddTask" p (w.heap p).Param W3).2, ?_, ?_⟩
        · simp only [Task.AddTask, World.store, World.record, h1, h2, l1, runPlan, runPlan_append,
            hr]
          rw [hh, q1, hW3]
          simp [World.after]
        · rw [q2]
          simp [runPlan, h1, h2, runPlan_append, hr]

theorem NextTime_of_cycle {σ : Type} (cd : CycleEvaluator) (w : World σ) (p : Ptr)
    (h : (w.heap p).RelTaskCnt = 0) :
    Task.NextTime cd w p =
      Result.ret (w.setTask p { w.heap p with
        NextRunTime := (cd (w.heap p).TaskCyc [0] [(w.heap p).StartSecond]).1 }) none := by
  simp only [Task.NextTime, h, if_true]

theorem exists_last_match (heap : Ptr → Task) (id : Int) :
    ∀ l : List Ptr, (∃ r ∈ l, (heap r).Id = id) →
      ∃ pre q post, l = pre ++ q :: post ∧ (heap q).Id = id ∧
        ∀ r ∈ post, (heap r).Id ≠ id := by
  intro l
  induction l with
  | nil => rintro ⟨r, hr, _⟩; simp at hr
  | cons a l ih =>
    intro h
    by_cases hl : ∃ r ∈ l, (heap r).Id = id
    · obtain ⟨pre, q, post, e1, e2, e3⟩ := ih hl
      exact ⟨a :: pre, q, post, by rw [e1]; rfl, e2, e3⟩
    · obtain ⟨r, hr, hid⟩ := h
      have hra : r = a := by
        rcases List.mem_cons.mp hr with h1 | h1
        · exact h1
        · exact absurd ⟨r, h1, hid⟩ hl
      subst hra
      exact ⟨[], r, l, rfl, hid, fun x hx e => hl ⟨x, hx, e⟩⟩

theorem refreshRemove_tasks {σ : Type} (gw : Gateway σ) (w : World σ) (pre post : List Ptr)
    (q : Ptr) (hT : w.sched.Tasks = pre ++ q :: post) :
    ∃ w2 e, refreshRemove gw w (pre.length : Int) = Result.ret w2 e ∧
      w2.heap = w.heap ∧ w2.sched.Tasks = pre ++ post ∧
      w2.sched.TaskCnt = (pre ++ post).length := by
  have hneg : ¬ ((pre.length : Int) < 0) := by omega
  have hget : w.sched.Tasks.get? (pre.length : Int).toNat = some q := by
    simp only [List.get?_eq_getElem?, hT, Int.toNat_ofNat]
    rw [List.getElem?_append_right (le_refl _)]
    simp
  have htake : List.take (pre.length : Int).toNat w.sched.Tasks ++
      List.drop ((pre.length : Int).toNat + 1) w.sched.Tasks = pre ++ post := by
    simp [hT]
  unfold refreshRemove
  simp only [hneg, if_false, hget, htake]
  split
  · exact ⟨_, _, rfl, rfl, rfl, rfl⟩
  · split
    · exact ⟨_, _, rfl, rfl, rfl, rfl⟩
    · exact ⟨_, _, rfl, rfl, rfl, rfl⟩

theorem Refresh_reload_failed_err {σ : Type} (gw : Gateway σ) (w w2 : World σ) (p : Ptr)
    (e : String) (h1 : (w.getTask gw p).2.isSome)
    (h2 : refreshRemove gw (w.getTask gw p).1 (scanTasks w.heap (w.heap p).Id w.sched.Tasks 0 (-1))
      = Result.ret w2 (some e)) :
    Task.Refresh gw w p = Result.ret w2 (some e) := by
  unfold Task.Refresh
  cases h : (w.getTask gw p).2 with
  | none => rw [h] at h1; simp at h1
  | some e0 => simp only [h2, h]

theorem Refresh_reload_failed_fault {σ : Type} (gw : Gateway σ) (w : World σ) (p : Ptr)
    (f : Fault) (h1 : (w.getTask gw p).2.isSome)
    (h2 : refreshRemove gw (w.getTask gw p).1 (scanTasks w.heap (w.heap p).Id w.sched.Tasks 0 (-1))
      = Result.panic f) :
    Task.Refresh gw w p = Result.panic f := by
  unfold Task.Refresh
  cases h : (w.getTask gw p).2 with
  | none => rw [h] at h1; simp at h1
  | some e0 => simp only [h2, h]

theorem scanTasks_tracked (heap : Ptr → Task) (id : Int) (l : List Ptr)
    (h : ∃ r ∈ l, (heap r).Id = id) : scanTasks heap id l 0 (-1) ≠ -1 := by
  obtain ⟨pre, q, post, hT, hq, hpost⟩ := exists_last_match heap id l h
  rw [hT, scanTasks_unique heap id pre post q hq hpost]
  omega

theorem GetJobById_id (s : Schedule) (id : Int) (k : Nat) (h : s.GetJobById id = Except.ok k) :
    (s.Jobs.getD k (Job.mk 0 "" [] 0)).Id = id := by
  unfold Schedule.GetJobById at h
  cases hf : s.Jobs.findIdx? (fun j => decide (j.Id = id)) with
  | none => rw [hf] at h; simp at h
  | some k1 =>
    rw [hf] at h
    have hk : k1 = k := by simpa using h
    subst hk
    obtain ⟨hlt, hp, _⟩ := List.findIdx?_eq_some_iff_getElem.mp hf
    rw [List.getD_eq_getElem?_getD, List.getElem?_eq_getElem hlt]
    simpa using hp

theorem refreshRest_loads_ok {σ : Type} (gw : Gateway σ) (w : World σ) (p : Ptr) (i : Int)
    (h2 : tailLoadsOk gw w p) :
    refreshRest gw w p i =
      if i = -1 then refreshInsert (resolveRelTasks gw (afterLoads gw w p) p) p
      else (resolveRelTasks gw (afterLoads gw w p) p, none) := by
  unfold refreshRest
  simp only [h2.1, h2.2, afterLoads]

theorem refreshRest_none {σ : Type} (gw : Gateway σ) (w : World σ) (p : Ptr) (i : Int)
    (h : (refreshRest gw w p i).2 = none) : tailLoadsOk gw w p := by
  unfold refreshRest at h
  cases h2 : (w.getTaskAttr gw p).2 with
  | some e => simp [h2] at h
  | none =>
    cases h3 : ((w.getTaskAttr gw p).1.getTaskParam gw p).2 with
    | some e => simp [h2, h3] at h
    | none => exact ⟨h2, h3⟩

theorem refreshInsert_none {σ : Type} (w : World σ) (p : Ptr)
    (h : (refreshInsert w p).2 = none) :
    ∃ k, w.sched.GetJobById (w.heap p).JobId = Except.ok k := by
  unfold refreshInsert at h
  simp only [Schedule.GetJobById, Schedule.addTaskList] at h ⊢
  cases hf : w.sched.Jobs.findIdx? (fun j => decide (j.Id = (w.heap p).JobId)) with
  | none => simp [hf] at h
  | some k => exact ⟨k, rfl⟩

theorem refreshInsert_job_id {σ : Type} (w : World σ) (p : Ptr) (k : Nat)
    (hjob : w.sched.GetJobById (w.heap p).JobId = Except.ok k) :
    ((refreshInsert w p).1.job k).Id = (w.heap p).JobId := by
  have hk := GetJobById_lt _ _ _ hjob
  have hid := GetJobById_id _ _ _ hjob
  have hjob1 : ∀ (ts : List Ptr) (c : Int),
      Schedule.GetJobById { w.sched with Tasks := ts, TaskCnt := c } (w.heap p).JobId
        = Except.ok k := by
    intro ts c
    simpa [Schedule.GetJobById] using hjob
  have hjobk : ∀ (ts : List Ptr) (c : Int),
      World.job { w with sched := { w.sched with Tasks := ts, TaskCnt := c } } k = w.job k := by
    intro ts c; rfl
  unfold refreshInsert
  simp only [Schedule.addTaskList, hjob1, hjobk]
  rw [job_setJob _ _ _ (by simpa using hk)]
  exact hid

theorem afterLoads_frame {σ : Type} (gw : Gateway σ) (w : World σ) (p : Ptr) :
    (afterLoads gw w p).sched = w.sched ∧
    (∀ q, ((afterLoads gw w p).heap q).Id = (w.heap q).Id) ∧
    ((afterLoads gw w p).heap p).JobId = (w.heap p).JobId := by
  refine ⟨rfl, ?_, ?_⟩
  · intro q
    by_cases hq : q = p <;>
      simp [afterLoads, World.getTaskParam, World.getTaskAttr, World.setTask, World.record, hq]
  · simp [afterLoads, World.getTaskParam, World.getTaskAttr, World.setTask, World.record]

theorem Refresh_fixed_definition {σ : Type} (gw : Gateway σ) (ids : List Int)
    (hbase : ∀ db t, (gw.getTask db t).2.2 = none ∧ (gw.getTask db t).2.1.Id = t.Id)
    (hattr : ∀ db t, (gw.getTaskAttr db t).2.2 = none)
    (hparam : ∀ db t, (gw.getTaskParam db t).2.2 = none)
    (hids : ∀ db t, (gw.getRelTaskId db t).2.1 = ids)
    (w : World σ) (p : Ptr) (htr : ∃ r ∈ w.sched.Tasks, (w.heap r).Id = (w.heap p).Id) :
    ∃ w1, Task.Refresh gw w p = Result.ret w1 none ∧
      (w1.heap p).deps = (ids, resolvedMap (w.sched.GetTaskById w.heap) ids [],
        ((resolvedCount w.sched w.heap ids : Nat) : Int)) ∧
      w1.sched = w.sched ∧ (∀ q, (w1.heap q).Id = (w.heap q).Id) := by
  have hi := scanTasks_tracked w.heap _ _ htr
  have h1 : (w.getTask gw p).2 = none := (hbase _ _).1
  have h2 : tailLoadsOk gw (w.getTask gw p).1 p := ⟨hattr _ _, hparam _ _⟩
  have hR := Refresh_reload_ok gw w p h1
  rw [refreshRest_loads_ok gw _ p _ h2, if_neg hi] at hR
  obtain ⟨a1, a2, _⟩ := afterLoads_frame gw (w.getTask gw p).1 p
  have hIdW : ∀ q, ((afterLoads gw (w.getTask gw p).1 p).heap q).Id = (w.heap q).Id := by
    intro q
    rw [a2 q]
    by_cases hq : q = p
    · subst hq
      simpa [World.getTask, World.setTask, World.record] using (hbase w.db (w.heap q)).2
    · simp [World.getTask, World.setTask, World.record, hq]
  have hlook : (afterLoads gw (w.getTask gw p).1 p).sched.GetTaskById
      (afterLoads gw (w.getTask gw p).1 p).heap = w.sched.GetTaskById w.heap := by
    funext id
    rw [a1]
    exact GetTaskById_congr _ _ _ hIdW id
  obtain ⟨r1, r2, r3⟩ := resolveRelTasks_spec gw (afterLoads gw (w.getTask gw p).1 p) p
  refine ⟨_, hR, ?_, ?_, ?_⟩
  · rw [r3]
    simp only [Task.deps, hids, hlook, resolvedCount]
  · rw [r1, a1]
    rfl
  · intro q
    by_cases hq : q = p
    · subst hq
      rw [r3]
      exact hIdW q
    · rw [r2 q hq]
      exact hIdW q

/-! ## The claims -/

/-- C1. For a task whose `RelTaskCnt` is positive and whose `RelTasks` entry under the decimal
string of `RelTasksId[0]` is a live task `d`, `NextTime` returns a nil error and leaves the task
with the `NextRunTime` that `d` had, and every other task as it was. -/
theorem NextTime_first_dependency {σ : Type} (cd : CycleEvaluator) (w : World σ) (p d : Ptr)
    (rtid : Int) (hcnt : 0 < (w.heap p).RelTaskCnt)
    (hid : (w.heap p).RelTasksId.head? = some rtid)
    (hd : mapAt (w.heap p).RelTasks (FormatInt rtid) = some d) :
    ∃ w1, Task.NextTime cd w p = Result.ret w1 none ∧
      (w1.heap p).NextRunTime = (w.heap d).NextRunTime ∧
      (∀ q, q ≠ p → w1.heap q = w.heap q) := by
  have hne : (w.heap p).RelTaskCnt ≠ 0 := by omega
  refine ⟨_, NextTime_of_entry cd w p d rtid hne hid hd, ?_, ?_⟩
  · simp [World.setTask]
  · intro q hq
    simp [World.setTask, hq]

/-- C1, the scenario: B depends on A only and A's next run time is 3600, so `NextTime` on B
yields 3600. -/
theorem NextTime_first_dependency_witness :
    ∃ w1, Task.NextTime exEval exWorldAB 1 = Result.ret w1 none ∧
      (w1.heap 1).NextRunTime = (exWorldAB.heap 0).NextRunTime ∧
      (∀ q, q ≠ 1 → w1.heap q = exWorldAB.heap q) :=
  NextTime_first_dependency exEval exWorldAB 1 0 1 (by decide) (by decide) (by decide)

/-- C2 as stated fails: task C (identity 3) has the persisted dependency ids `[1, 2]`, the
schedule holds task 2 (next run time 500) and no task 1. `InitTask` leaves `RelTaskCnt = 1`, a
nil entry under `"1"` and task 2 under `"2"`; `NextTime` on C then does not return with C's
`NextRunTime` set to 500: it dereferences the nil entry of the first listed id. -/
theorem NextTime_unresolved_first_id :
    ((Task.InitTask (exGateway [1, 2]) exWorldCY 0).1.heap 0).RelTaskCnt = 1 ∧
    mapGet ((Task.InitTask (exGateway [1, 2]) exWorldCY 0).1.heap 0).RelTasks "1" = some none ∧
    mapGet ((Task.InitTask (exGateway [1, 2]) exWorldCY 0).1.heap 0).RelTasks "2"
      = some (some 1) ∧
    ((Task.InitTask (exGateway [1, 2]) exWorldCY 0).1.heap 1).NextRunTime = 500 ∧
    (Task.NextTime exEval (Task.InitTask (exGateway [1, 2]) exWorldCY 0).1 0).fault?
      = some Fault.nilDeref ∧
    ¬ ∃ w1 e, Task.NextTime exEval (Task.InitTask (exGateway [1, 2]) exWorldCY 0).1 0
        = Result.ret w1 e ∧ (w1.heap 0).NextRunTime = 500 := by
  refine ⟨by decide, by decide, by decide, by decide, by decide, ?_⟩
  rintro ⟨w1, e, h, _⟩
  have hf : (Task.NextTime exEval (Task.InitTask (exGateway [1, 2]) exWorldCY 0).1 0).fault?
      = some Fault.nilDeref := by decide
  rw [h] at hf
  simp [Result.fault?] at hf

/-- C2, amended. Let the checked loads of `InitTask` on C succeed, and in the state the
resolution runs in let the schedule hold no task `X` and the live task `y` under `Y`. When the
persisted dependency ids are `[X, Y]`, `InitTask` returns nil and leaves `RelTaskCnt = 1`, a nil
entry under `X` and `y` under `Y`, and the entry under the first listed id, the one `NextTime`
reads, is the nil one. When they are `[Y, X]`, the same entries result and `NextTime` on C
returns nil with C's `NextRunTime` set to that of `y`. -/
theorem InitTask_NextTime_first_listed {σ : Type} (gw : Gateway σ) (cd : CycleEvaluator)
    (w : World σ) (p y : Ptr) (X Y : Int)
    (h1 : (w.getTask gw p).2 = none) (h2 : tailLoadsOk gw (w.getTask gw p).1 p)
    (hX : (afterLoads gw (w.getTask gw p).1 p).sched.GetTaskById
      (afterLoads gw (w.getTask gw p).1 p).heap X = none)
    (hY : (afterLoads gw (w.getTask gw p).1 p).sched.GetTaskById
      (afterLoads gw (w.getTask gw p).1 p).heap Y = some y) :
    ((gw.getRelTaskId (afterLoads gw (w.getTask gw p).1 p).db
        ((afterLoads gw (w.getTask gw p).1 p).heap p).resetRel).2.1 = [X, Y] →
      (Task.InitTask gw w p).2 = none ∧
      ((Task.InitTask gw w p).1.heap p).RelTaskCnt = 1 ∧
      mapGet ((Task.InitTask gw w p).1.heap p).RelTasks (FormatInt X) = some none ∧
      mapGet ((Task.InitTask gw w p).1.heap p).RelTasks (FormatInt Y) = some (some y) ∧
      ((Task.InitTask gw w p).1.heap p).RelTasksId.head? = some X ∧
      mapAt ((Task.InitTask gw w p).1.heap p).RelTasks (FormatInt X) = none) ∧
    ((gw.getRelTaskId (afterLoads gw (w.getTask gw p).1 p).db
        ((afterLoads gw (w.getTask gw p).1 p).heap p).resetRel).2.1 = [Y, X] →
      (Task.InitTask gw w p).2 = none ∧
      ((Task.InitTask gw w p).1.heap p).RelTaskCnt = 1 ∧
      mapGet ((Task.InitTask gw w p).1.heap p).RelTasks (FormatInt X) = some none ∧
      mapGet ((Task.InitTask gw w p).1.heap p).RelTasks (FormatInt Y) = some (some y) ∧
      ∃ w1, Task.NextTime cd (Task.InitTask gw w p).1 p = Result.ret w1 none ∧
        (w1.heap p).NextRunTime = ((Task.InitTask gw w p).1.heap y).NextRunTime) := by
  constructor
  · intro hids
    obtain ⟨e1, e2, e3, e4, e5⟩ := InitTask_two_ids gw w p X Y h1 h2 hids
    rw [hX] at e4
    rw [hY] at e5
    refine ⟨e1, ?_, e4, e5, ?_, ?_⟩
    · rw [e3]; simp [resolvedCount, hX, hY]
    · rw [e2]; rfl
    · simp [mapAt, e4]
  · intro hids
    obtain ⟨e1, e2, e3, e4, e5⟩ := InitTask_two_ids gw w p Y X h1 h2 hids
    rw [hY] at e4
    rw [hX] at e5
    have hcnt : ((Task.InitTask gw w p).1.heap p).RelTaskCnt = 1 := by
      rw [e3]; simp [resolvedCount, hX, hY]
    refine ⟨e1, hcnt, e5, e4, _, NextTime_of_entry cd _ p y Y ?_ ?_ ?_, ?_⟩
    · rw [hcnt]; decide
    · rw [e2]; rfl
    · simp [mapAt, e4]
    · simp [World.setTask]

/-- C2, amended, at the two orders of the concrete dependency ids 1 (absent) and 2 (held). -/
theorem InitTask_NextTime_first_listed_witness :
    (((Task.InitTask (exGateway [1, 2]) exWorldCY 0).1.heap 0).RelTaskCnt = 1 ∧
      ((Task.InitTask (exGateway [1, 2]) exWorldCY 0).1.heap 0).RelTasksId.head? = some 1 ∧
      mapAt ((Task.InitTask (exGateway [1, 2]) exWorldCY 0).1.heap 0).RelTasks (FormatInt 1)
        = none) ∧
    (∃ w1, Task.NextTime exEval (Task.InitTask (exGateway [2, 1]) exWorldCY 0).1 0
        = Result.ret w1 none ∧
      (w1.heap 0).NextRunTime = ((Task.InitTask (exGateway [2, 1]) exWorldCY 0).1.heap 1).NextRunTime) :=
  ⟨⟨((InitTask_NextTime_first_listed (exGateway [1, 2]) exEval exWorldCY 0 1 1 2 (by decide)
        (by decide) (by decide) (by decide)).1 (by decide)).2.1,
      ((InitTask_NextTime_first_listed (exGateway [1, 2]) exEval exWorldCY 0 1 1 2 (by decide)
        (by decide) (by decide) (by decide)).1 (by decide)).2.2.2.2.1,
      ((InitTask_NextTime_first_listed (exGateway [1, 2]) exEval exWorldCY 0 1 1 2 (by decide)
        (by decide) (by decide) (by decide)).1 (by decide)).2.2.2.2.2⟩,
    ((InitTask_NextTime_first_listed (exGateway [2, 1]) exEval exWorldCY 0 1 1 2 (by decide)
        (by decide) (by decide) (by decide)).2 (by decide)).2.2.2.2⟩

/-- C3 as stated fails. First, task 3 was registered twice by `InitTask`, so that the schedule
tracks it at two positions; when its base row is gone, `Refresh` takes out one position and an
entry with identity 3 stays. Second, when the job-level removal fails (the job was found),
the job's `TaskCnt` is what it was. -/
theorem Refresh_leaves_duplicate_entry :
    (Task.InitTask (exGateway []) (Task.InitTask (exGateway []) exWorldCY 0).1 0).1.sched.Tasks
      = [1, 0, 0] ∧
    ((Task.InitTask (exGateway []) (Task.InitTask (exGateway []) exWorldCY 0).1 0).1.heap 0).Id
      = 3 ∧
    (Task.Refresh (exGatewayNoRow [])
      (Task.InitTask (exGateway []) (Task.InitTask (exGateway []) exWorldCY 0).1 0).1 0).err?
      = none ∧
    (Task.Refresh (exGatewayNoRow [])
      (Task.InitTask (exGateway []) (Task.InitTask (exGateway []) exWorldCY 0).1 0).1 0).world?.map
        (fun w => w.sched.Tasks.map (fun r => (w.heap r).Id)) = some [2, 3] ∧
    (exWorldTracked.sched.GetJobById (exWorldTracked.heap 0).JobId).toOption = some 0 ∧
    (exWorldTracked.job 0).TaskCnt = 2 ∧
    (Task.Refresh exGatewayJobFails exWorldTracked 0).world?.map (fun w => (w.job 0).TaskCnt)
      = some 2 := by
  decide

/-- C3, amended. Let the schedule track the task's identity at exactly one position, let the
base reload of `Refresh` fail, the owning job be found and the job-level removal succeed. Then
`Refresh` returns, the schedule's tasks are the former ones without that position, none of them
has the identity, `TaskCnt` is their number and the owning job's `TaskCnt` is one less. -/
theorem Refresh_removes_vanished {σ : Type} (gw : Gateway σ) (w : World σ) (p q : Ptr)
    (pre post : List Ptr) (e : String) (k : Nat)
    (hT : w.sched.Tasks = pre ++ q :: post)
    (hq : (w.heap q).Id = (w.heap p).Id)
    (hpre : ∀ r ∈ pre, (w.heap r).Id ≠ (w.heap p).Id)
    (hpost : ∀ r ∈ post, (w.heap r).Id ≠ (w.heap p).Id)
    (hfail : (w.getTask gw p).2 = some e)
    (hjob : w.sched.GetJobById ((w.getTask gw p).1.heap q).JobId = Except.ok k)
    (hdel : (gw.jobDeleteTask (w.getTask gw p).1.db (w.job k).Id
      ((w.getTask gw p).1.heap q).Id).2 = none) :
    ∃ w1 e1, Task.Refresh gw w p = Result.ret w1 e1 ∧
      w1.sched.Tasks = pre ++ post ∧
      (∀ r ∈ w1.sched.Tasks, (w1.heap r).Id ≠ (w.heap p).Id) ∧
      w1.sched.TaskCnt = w1.sched.Tasks.length ∧
      (w1.job k).TaskCnt = (w.job k).TaskCnt - 1 := by
  have hs : (w.getTask gw p).1.sched = w.sched := rfl
  have hh : ∀ r, r ≠ p → (w.getTask gw p).1.heap r = w.heap r := by
    intro r hr
    simp [World.getTask, World.setTask, World.record, hr]
  have hi : scanTasks w.heap (w.heap p).Id w.sched.Tasks 0 (-1) = (pre.length : Int) := by
    rw [hT]
    exact scanTasks_unique w.heap _ pre post q hq hpost
  obtain ⟨w2, hrem, h2h, h2t, h2c, h2j, _⟩ :=
    refreshRemove_at gw (w.getTask gw p).1 pre post q k (hs ▸ hT) (hs ▸ hjob) hdel
  have hne : (pre.length : Int) ≠ -1 := by omega
  obtain ⟨hrs, hrh⟩ := refreshRest_tracked gw w2 p (pre.length : Int) hne
  have hR := Refresh_reload_failed gw w w2 p (by rw [hfail]; rfl) (by rw [hi]; exact hrem)
  rw [hi] at hR
  refine ⟨_, _, hR, ?_, ?_, ?_, ?_⟩
  · rw [hrs, h2t]
  · intro r hr
    rw [hrs, h2t] at hr
    have hid : (w.heap r).Id ≠ (w.heap p).Id := by
      rcases List.mem_append.mp hr with h | h
      · exact hpre r h
      · exact hpost r h
    have hrp : r ≠ p := fun e => hid (e ▸ rfl)
    rw [hrh r hrp, h2h, hh r hrp]
    exact hid
  · rw [hrs, h2c, h2t]
  · have : (refreshRest gw w2 p (pre.length : Int)).1.job k = w2.job k := by
      unfold World.job
      rw [hrs]
    rw [this, h2j]
    rfl

/-- C3, amended, at the tracked task 1 of job 1 whose base row is gone. -/
theorem Refresh_removes_vanished_witness :
    ∃ w1 e1, Task.Refresh (exGatewayNoRow [2]) exWorldTracked 0 = Result.ret w1 e1 ∧
      w1.sched.Tasks = [1] ++ [] ∧
      (∀ r ∈ w1.sched.Tasks, (w1.heap r).Id ≠ (exWorldTracked.heap 0).Id) ∧
      w1.sched.TaskCnt = w1.sched.Tasks.length ∧
      (w1.job 0).TaskCnt = (exWorldTracked.job 0).TaskCnt - 1 :=
  Refresh_removes_vanished (exGatewayNoRow [2]) exWorldTracked 0 0 [1] []
    "sql: no rows in result set" 0 (by decide) (by decide) (by decide) (by decide) (by decide)
    rfl (by decide)

/-- C4 as stated fails. The base row of the tracked task 1 is gone and the job-level removal
fails, so `Refresh` leaves the task out of the schedule and in its job's `Tasks`. When the base
row is back, the schedule does not track identity 1, every load succeeds and the owning job is
found, and `Refresh` leaves the job's `Tasks` with the two entries it had. -/
theorem Refresh_overwrites_job_entry :
    exWorldHalfRemoved.sched.Tasks = [1] ∧
    (∀ r ∈ exWorldHalfRemoved.sched.Tasks,
      (exWorldHalfRemoved.heap r).Id ≠ (exWorldHalfRemoved.heap 0).Id) ∧
    (exWorldHalfRemoved.job 0).Tasks.length = 2 ∧
    (Task.Refresh (exGateway [2]) exWorldHalfRemoved 0).fault? = none ∧
    (Task.Refresh (exGateway [2]) exWorldHalfRemoved 0).err? = none ∧
    (Task.Refresh (exGateway [2]) exWorldHalfRemoved 0).world?.map
      (fun w => (w.sched.Tasks, (w.job 0).Tasks.length)) = some ([1, 0], 2) := by
  decide

/-- C4, amended. Let the schedule not track the task's identity, let the loads that `Refresh`
checks succeed, the owning job be found and its `Tasks` hold no entry under the decimal string
of the task's `Id`. Then `Refresh` returns nil, the schedule's tasks are the former ones with the
task appended, `TaskCnt` is their number, and the owning job's `Tasks` is the former map with one
more entry: the task under the decimal string of its `Id`. -/
theorem Refresh_inserts_untracked {σ : Type} (gw : Gateway σ) (w : World σ) (p : Ptr) (k : Nat)
    (hun : ∀ r ∈ w.sched.Tasks, (w.heap r).Id ≠ (w.heap p).Id)
    (h1 : (w.getTask gw p).2 = none) (h2 : tailLoadsOk gw (w.getTask gw p).1 p)
    (hjob : w.sched.GetJobById ((afterLoads gw (w.getTask gw p).1 p).heap p).JobId = Except.ok k)
    (habs : mapGet (w.job k).Tasks
      (FormatInt ((afterLoads gw (w.getTask gw p).1 p).heap p).Id) = none) :
    ∃ w1, Task.Refresh gw w p = Result.ret w1 none ∧
      w1.sched.Tasks = w.sched.Tasks ++ [p] ∧
      w1.sched.TaskCnt = w1.sched.Tasks.length ∧
      (w1.job k).Tasks = mapSet (w.job k).Tasks (FormatInt (w1.heap p).Id) (some p) ∧
      (w1.job k).Tasks.length = (w.job k).Tasks.length + 1 ∧
      mapGet (w1.job k).Tasks (FormatInt (w1.heap p).Id) = some (some p) ∧
      (∀ key, key ≠ FormatInt (w1.heap p).Id →
        mapGet (w1.job k).Tasks key = mapGet (w.job k).Tasks key) := by
  have hi : scanTasks w.heap (w.heap p).Id w.sched.Tasks 0 (-1) = -1 :=
    scanTasks_none w.heap _ _ _ _ hun
  have hW : (afterLoads gw (w.getTask gw p).1 p).sched = w.sched := rfl
  obtain ⟨r1, _, r3⟩ := resolveRelTasks_spec gw (afterLoads gw (w.getTask gw p).1 p) p
  have hjobR : (resolveRelTasks gw (afterLoads gw (w.getTask gw p).1 p) p).sched.GetJobById
      ((resolveRelTasks gw (afterLoads gw (w.getTask gw p).1 p) p).heap p).JobId
        = Except.ok k := by
    rw [r1, r3, hW]; exact hjob
  have hjk : (resolveRelTasks gw (afterLoads gw (w.getTask gw p).1 p) p).job k = w.job k := by
    unfold World.job
    rw [r1, hW]
  have hId : ((resolveRelTasks gw (afterLoads gw (w.getTask gw p).1 p) p).heap p).Id
      = ((afterLoads gw (w.getTask gw p).1 p).heap p).Id := by
    rw [r3]
  obtain ⟨f1, f2, f3, f4, _⟩ := refreshInsert_found _ p k hjobR
  have hrest : refreshRest gw (w.getTask gw p).1 p (-1) =
      refreshInsert (resolveRelTasks gw (afterLoads gw (w.getTask gw p).1 p) p) p := by
    unfold refreshRest
    simp only [h2.1, h2.2, afterLoads, if_true]
  have hR := Refresh_reload_ok gw w p h1
  rw [hi, hrest, f1] at hR
  have hkey : FormatInt ((refreshInsert
      (resolveRelTasks gw (afterLoads gw (w.getTask gw p).1 p) p) p).1.heap p).Id
        = FormatInt ((afterLoads gw (w.getTask gw p).1 p).heap p).Id := by
    rw [refreshInsert_heap, hId]
  refine ⟨_, hR, ?_, ?_, ?_, ?_, ?_, ?_⟩
  · rw [f2, r1, hW]
  · rw [f3, f2]
  · rw [f4, hjk, refreshInsert_heap]
  · rw [f4, hjk, hId, mapSet_length_of_absent _ _ _ habs]
  · rw [f4, hjk, hkey, hId, mapGet_mapSet, if_pos rfl]
  · intro key hkeyne
    rw [hkey] at hkeyne
    rw [f4, hjk, hId, mapGet_mapSet, if_neg (fun e => hkeyne e.symm)]

/-- C4, amended, at the untracked task 3 of job 1, whose `Tasks` holds task 2 only. -/
theorem Refresh_inserts_untracked_witness :
    ∃ w1, Task.Refresh (exGateway []) exWorldCY 0 = Result.ret w1 none ∧
      w1.sched.Tasks = exWorldCY.sched.Tasks ++ [0] ∧
      w1.sched.TaskCnt = w1.sched.Tasks.length ∧
      (w1.job 0).Tasks = mapSet (exWorldCY.job 0).Tasks (FormatInt (w1.heap 0).Id) (some 0) ∧
      (w1.job 0).Tasks.length = (exWorldCY.job 0).Tasks.length + 1 ∧
      mapGet (w1.job 0).Tasks (FormatInt (w1.heap 0).Id) = some (some 0) ∧
      (∀ key, key ≠ FormatInt (w1.heap 0).Id →
        mapGet (w1.job 0).Tasks key = mapGet (exWorldCY.job 0).Tasks key) :=
  Refresh_inserts_untracked (exGateway []) exWorldCY 0 0 (by decide) (by decide) (by decide)
    rfl (by decide)

/-- C5. At a tracked task whose base reload fails and whose Schedule-side and Job-side removals
succeed, `Refresh` goes on after the removal: it loads the attributes, the parameters and the
dependency ids and replaces the task's `RelTasksId`, `RelTasks` and `RelTaskCnt`. -/
theorem Refresh_continues_after_removal :
    (exWorldTracked.getTask (exGatewayNoRow []) 0).2 = some "sql: no rows in result set" ∧
    (refreshRemove (exGatewayNoRow []) (exWorldTracked.getTask (exGatewayNoRow []) 0).1 1).err?
      = none ∧
    (Task.Refresh (exGatewayNoRow []) exWorldTracked 0).fault? = none ∧
    (Task.Refresh (exGatewayNoRow []) exWorldTracked 0).err? = none ∧
    (Task.Refresh (exGatewayNoRow []) exWorldTracked 0).world?.map (fun w => w.calls) =
      some [Call.getTask 0, Call.jobDeleteTask 1 1, Call.getTaskAttr 0, Call.getTaskParam 0,
        Call.getRelTaskId 0] ∧
    ((exWorldTracked.heap 0).RelTasksId, (exWorldTracked.heap 0).RelTasks,
      (exWorldTracked.heap 0).RelTaskCnt) = ([2], [("2", some 1)], 1) ∧
    (Task.Refresh (exGatewayNoRow []) exWorldTracked 0).world?.map
      (fun w => ((w.heap 0).RelTasksId, (w.heap 0).RelTasks, (w.heap 0).RelTaskCnt)) =
      some ([], [], 0) := by
  decide

/-- C6. A task initialised with one dependency id that the schedule does not hold has a nil
entry in `RelTasks`; on it `AddTask`, with a store in which every insert succeeds, faults with a
nil dereference at `rt.Id` instead of skipping the entry. -/
theorem AddTask_nil_entry_faults :
    ((Task.InitTask (exGateway [1]) exWorldCY 0).1.heap 0).RelTasks = [("1", none)] ∧
    (Task.InitTask (exGateway [1]) exWorldCY 0).2 = none ∧
    (Task.AddTask (exGateway [1]) (Task.InitTask (exGateway [1]) exWorldCY 0).1 0).fault?
      = some Fault.nilDeref := by
  decide

/-- C7. With a store whose load of the dependency ids fails while the three loads before it
succeed, `InitTask` returns a nil error and registers the task. -/
theorem InitTask_swallows_getRelTaskId_error :
    (exGatewayRelFails.getRelTaskId () (exTask 3).resetRel).2.2 = some "connection refused" ∧
    (Task.InitTask exGatewayRelFails exWorldCY 0).2 = none ∧
    (Task.InitTask exGatewayRelFails exWorldCY 0).1.sched.Tasks = [1, 0] ∧
    (Task.InitTask exGatewayRelFails exWorldCY 0).1.calls =
      [Call.getTask 0, Call.getTaskAttr 0, Call.getTaskParam 0, Call.getRelTaskId 0] := by
  decide

/-- C8. For a task without resolved dependency whose cycle the evaluator rejects, `NextTime`
returns a nil error and overwrites `NextRunTime` (77 before) with the instant the evaluator
returned next to its error (0). -/
theorem NextTime_drops_evaluator_error :
    (exWorldBadCycle.heap 0).RelTaskCnt = 0 ∧
    (exEval (exWorldBadCycle.heap 0).TaskCyc [0] [(exWorldBadCycle.heap 0).StartSecond]).2
      = some "bad cycle" ∧
    (Task.NextTime exEval exWorldBadCycle 0).fault? = none ∧
    (Task.NextTime exEval exWorldBadCycle 0).err? = none ∧
    (exWorldBadCycle.heap 0).NextRunTime = 77 ∧
    (Task.NextTime exEval exWorldBadCycle 0).world?.map (fun w => (w.heap 0).NextRunTime)
      = some 0 := by
  decide

/-- C9. After an `InitTask` or a `Refresh` that gets to the end of the dependency resolution
(the loads it checks succeed; for `Refresh` also when the base reload failed and the removal
branch was left at its end), the task's `RelTaskCnt` is the number of positions of its
`RelTasksId` whose id the schedule's lookup found in the state the resolution ran in, and it is
at most the length of `RelTasksId`. -/
theorem RelTaskCnt_counts_resolved {σ : Type} (gw : Gateway σ) (w : World σ) (p : Ptr) :
    ((w.getTask gw p).2 = none → tailLoadsOk gw (w.getTask gw p).1 p →
      (Task.InitTask gw w p).2 = none ∧
      ((Task.InitTask gw w p).1.heap p).RelTaskCnt =
        resolvedCount (afterLoads gw (w.getTask gw p).1 p).sched
          (afterLoads gw (w.getTask gw p).1 p).heap
          ((Task.InitTask gw w p).1.heap p).RelTasksId ∧
      ((Task.InitTask gw w p).1.heap p).RelTaskCnt
        ≤ ((Task.InitTask gw w p).1.heap p).RelTasksId.length) ∧
    ((w.getTask gw p).2 = none → tailLoadsOk gw (w.getTask gw p).1 p →
      ∃ w1 e, Task.Refresh gw w p = Result.ret w1 e ∧
        (w1.heap p).RelTaskCnt =
          resolvedCount (afterLoads gw (w.getTask gw p).1 p).sched
            (afterLoads gw (w.getTask gw p).1 p).heap (w1.heap p).RelTasksId ∧
        (w1.heap p).RelTaskCnt ≤ (w1.heap p).RelTasksId.length) ∧
    (∀ w2, (w.getTask gw p).2.isSome →
      refreshRemove gw (w.getTask gw p).1 (scanTasks w.heap (w.heap p).Id w.sched.Tasks 0 (-1))
        = Result.ret w2 none →
      tailLoadsOk gw w2 p →
      ∃ w1 e, Task.Refresh gw w p = Result.ret w1 e ∧
        (w1.heap p).RelTaskCnt =
          resolvedCount (afterLoads gw w2 p).sched (afterLoads gw w2 p).heap
            (w1.heap p).RelTasksId ∧
        (w1.heap p).RelTaskCnt ≤ (w1.heap p).RelTasksId.length) := by
  refine ⟨?_, ?_, ?_⟩
  · intro h1 h2
    rw [InitTask_loads_ok gw w p h1 h2]
    exact ⟨rfl, resolveRelTasks_count gw _ p⟩
  · intro h1 h2
    refine ⟨_, _, Refresh_reload_ok gw w p h1, ?_⟩
    rw [refreshRest_heap gw _ p _ h2.1 h2.2]
    exact resolveRelTasks_count gw _ p
  · intro w2 h1 hrem h2
    refine ⟨_, _, Refresh_reload_failed gw w w2 p h1 hrem, ?_⟩
    rw [refreshRest_heap gw _ p _ h2.1 h2.2]
    exact resolveRelTasks_count gw _ p

/-- C9 at concrete inputs: the untracked task 3 with persisted dependency ids `[1, 2]`, of
which the schedule holds 2 only, initialised and refreshed; and the tracked task 1, whose base
row is gone and whose persisted dependency ids are `[2]`, refreshed. -/
theorem RelTaskCnt_counts_resolved_witness :
    ((Task.InitTask (exGateway [1, 2]) exWorldCY 0).2 = none ∧
      ((Task.InitTask (exGateway [1, 2]) exWorldCY 0).1.heap 0).RelTaskCnt = 1 ∧
      ((Task.InitTask (exGateway [1, 2]) exWorldCY 0).1.heap 0).RelTaskCnt ≤ 2) ∧
    (∃ w1 e, Task.Refresh (exGateway [1, 2]) exWorldCY 0 = Result.ret w1 e ∧
      (w1.heap 0).RelTaskCnt =
        resolvedCount (afterLoads (exGateway [1, 2]) (exWorldCY.getTask (exGateway [1, 2]) 0).1 0).sched
          (afterLoads (exGateway [1, 2]) (exWorldCY.getTask (exGateway [1, 2]) 0).1 0).heap
          (w1.heap 0).RelTasksId ∧
      (w1.heap 0).RelTaskCnt ≤ (w1.heap 0).RelTasksId.length) ∧
    (∃ w1 e, Task.Refresh (exGatewayNoRow [2]) exWorldTracked 0 = Result.ret w1 e ∧
      (w1.heap 0).RelTaskCnt =
        resolvedCount (afterLoads (exGatewayNoRow [2]) exWorldRemoved 0).sched
          (afterLoads (exGatewayNoRow [2]) exWorldRemoved 0).heap (w1.heap 0).RelTasksId ∧
      (w1.heap 0).RelTaskCnt ≤ (w1.heap 0).RelTasksId.length) :=
  ⟨(RelTaskCnt_counts_resolved (exGateway [1, 2]) exWorldCY 0).1 (by decide) (by decide),
    (RelTaskCnt_counts_resolved (exGateway [1, 2]) exWorldCY 0).2.1 (by decide) (by decide),
    (RelTaskCnt_counts_resolved (exGatewayNoRow [2]) exWorldTracked 0).2.2 exWorldRemoved
      (by decide) rfl (by decide)⟩

/-- C10. After an `InitTask` whose checked loads succeed the error is nil, the keys of
`RelTasks` are exactly the decimal strings of the ids of `RelTasksId`, every id is mapped to the
schedule's lookup result for it (nil when absent), whatever the lookups of the other ids gave;
with a single id that the schedule does not hold, `RelTaskCnt` is 0 and the entry under its key
is nil. -/
theorem InitTask_resolves_every_id {σ : Type} (gw : Gateway σ) (w : World σ) (p : Ptr)
    (h1 : (w.getTask gw p).2 = none) (h2 : tailLoadsOk gw (w.getTask gw p).1 p) :
    (Task.InitTask gw w p).2 = none ∧
    (∀ k, (mapGet ((Task.InitTask gw w p).1.heap p).RelTasks k).isSome ↔
      ∃ id ∈ ((Task.InitTask gw w p).1.heap p).RelTasksId, FormatInt id = k) ∧
    (∀ id ∈ ((Task.InitTask gw w p).1.heap p).RelTasksId,
      mapGet ((Task.InitTask gw w p).1.heap p).RelTasks (FormatInt id) =
        some ((afterLoads gw (w.getTask gw p).1 p).sched.GetTaskById
          (afterLoads gw (w.getTask gw p).1 p).heap id)) ∧
    (∀ x, ((Task.InitTask gw w p).1.heap p).RelTasksId = [x] →
      (afterLoads gw (w.getTask gw p).1 p).sched.GetTaskById
        (afterLoads gw (w.getTask gw p).1 p).heap x = none →
      ((Task.InitTask gw w p).1.heap p).RelTaskCnt = 0 ∧
      mapGet ((Task.InitTask gw w p).1.heap p).RelTasks (FormatInt x) = some none) := by
  rw [InitTask_loads_ok gw w p h1 h2]
  obtain ⟨_, _, h⟩ := resolveRelTasks_spec gw (afterLoads gw (w.getTask gw p).1 p) p
  simp only []
  rw [h]
  refine ⟨trivial, ?_, ?_, ?_⟩
  · intro k
    exact resolvedMap_keys _ _ k
  · intro id hid
    exact resolvedMap_mem _ id _ [] hid
  · intro x hx hnone
    simp only [] at hx
    refine ⟨?_, ?_⟩
    · simp [hx, resolvedCount, hnone]
    · have := resolvedMap_mem ((afterLoads gw (w.getTask gw p).1 p).sched.GetTaskById
        (afterLoads gw (w.getTask gw p).1 p).heap) x _ [] (hx ▸ List.mem_singleton_self x)
      rw [this, hnone]

/-- C10 at a concrete input: the untracked task 3 whose single persisted dependency id 1 the
schedule does not hold. -/
theorem InitTask_resolves_every_id_witness :
    (Task.InitTask (exGateway [1]) exWorldCY 0).2 = none ∧
    ((Task.InitTask (exGateway [1]) exWorldCY 0).1.heap 0).RelTasksId = [1] ∧
    ((Task.InitTask (exGateway [1]) exWorldCY 0).1.heap 0).RelTaskCnt = 0 ∧
    mapGet ((Task.InitTask (exGateway [1]) exWorldCY 0).1.heap 0).RelTasks (FormatInt 1)
      = some none :=
  ⟨(InitTask_resolves_every_id (exGateway [1]) exWorldCY 0 (by decide) (by decide)).1,
    by decide,
    (InitTask_resolves_every_id (exGateway [1]) exWorldCY 0 (by decide) (by decide)).2.2.2 1
      (by decide) (by decide)⟩

/-- C11. Let the persisted definition be fixed and its loads succeed: the base reload keeps
the identity, and the load of the dependency ids gives `ids`, whatever the store and the task
hold. For a task whose identity the schedule tracks, a first and a second `Refresh` return nil
and leave the same `RelTasksId`, `RelTasks` and `RelTaskCnt`, built from `ids` and the
schedule's lookups alone; a first `Refresh` from a state that differs only in these three fields
of the task leaves them the same too. -/
theorem Refresh_resolution_idempotent {σ : Type} (gw : Gateway σ) (ids : List Int)
    (hbase : ∀ db t, (gw.getTask db t).2.2 = none ∧ (gw.getTask db t).2.1.Id = t.Id)
    (hattr : ∀ db t, (gw.getTaskAttr db t).2.2 = none)
    (hparam : ∀ db t, (gw.getTaskParam db t).2.2 = none)
    (hids : ∀ db t, (gw.getRelTaskId db t).2.1 = ids)
    (w : World σ) (p : Ptr) (htr : ∃ r ∈ w.sched.Tasks, (w.heap r).Id = (w.heap p).Id) :
    ∃ w1 w2, Task.Refresh gw w p = Result.ret w1 none ∧
      Task.Refresh gw w1 p = Result.ret w2 none ∧
      (w2.heap p).deps = (w1.heap p).deps ∧
      (w1.heap p).deps = (ids, resolvedMap (w.sched.GetTaskById w.heap) ids [],
        ((resolvedCount w.sched w.heap ids : Nat) : Int)) ∧
      (∀ (a : List Int) (b : List (String × Option Ptr)) (c : Int),
        ∃ w3, Task.Refresh gw
            (w.setTask p ((w.heap p).withDeps a b c)) p
              = Result.ret w3 none ∧
          (w3.heap p).deps = (w1.heap p).deps) := by
  obtain ⟨w1, e1, d1, s1, i1⟩ := Refresh_fixed_definition gw ids hbase hattr hparam hids w p htr
  have htr1 : ∃ r ∈ w1.sched.Tasks, (w1.heap r).Id = (w1.heap p).Id := by
    obtain ⟨r, hr, hid⟩ := htr
    exact ⟨r, s1 ▸ hr, by rw [i1 r, i1 p]; exact hid⟩
  obtain ⟨w2, e2, d2, _, _⟩ := Refresh_fixed_definition gw ids hbase hattr hparam hids w1 p htr1
  have hlook1 : w1.sched.GetTaskById w1.heap = w.sched.GetTaskById w.heap := by
    funext id
    rw [s1]
    exact GetTaskById_congr _ _ _ i1 id
  refine ⟨w1, w2, e1, e2, ?_, d1, ?_⟩
  · rw [d2, d1]
    simp only [resolvedCount, hlook1]
  · intro a b c
    have hIds : ∀ q, ((w.setTask p ((w.heap p).withDeps a b c)).heap q).Id = (w.heap q).Id := by
      intro q
      by_cases hq : q = p <;> simp [World.setTask, Task.withDeps, hq]
    have htr3 : ∃ r ∈ (w.setTask p ((w.heap p).withDeps a b c)).sched.Tasks,
        ((w.setTask p ((w.heap p).withDeps a b c)).heap r).Id
          = ((w.setTask p ((w.heap p).withDeps a b c)).heap p).Id := by
      obtain ⟨r, hr, hid⟩ := htr
      exact ⟨r, hr, by rw [hIds r, hIds p]; exact hid⟩
    obtain ⟨w3, e3, d3, _, _⟩ :=
      Refresh_fixed_definition gw ids hbase hattr hparam hids _ p htr3
    have hlook3 : (w.setTask p ((w.heap p).withDeps a b c)).sched.GetTaskById
        (w.setTask p ((w.heap p).withDeps a b c)).heap
          = w.sched.GetTaskById w.heap := by
      funext id
      exact GetTaskById_congr _ _ _ hIds id
    refine ⟨w3, e3, ?_⟩
    rw [d3, d1]
    simp only [resolvedCount, hlook3]

/-- C11 at the tracked task 1, whose persisted dependency ids are `[2]`. -/
theorem Refresh_resolution_idempotent_witness :
    ∃ w1 w2, Task.Refresh (exGateway [2]) exWorldTracked 0 = Result.ret w1 none ∧
      Task.Refresh (exGateway [2]) w1 0 = Result.ret w2 none ∧
      (w2.heap 0).deps = (w1.heap 0).deps ∧
      (w1.heap 0).deps = ([2],
        resolvedMap (exWorldTracked.sched.GetTaskById exWorldTracked.heap) [2] [],
        ((resolvedCount exWorldTracked.sched exWorldTracked.heap [2] : Nat) : Int)) ∧
      (∀ (a : List Int) (b : List (String × Option Ptr)) (c : Int),
        ∃ w3, Task.Refresh (exGateway [2])
            (exWorldTracked.setTask 0
              ((exWorldTracked.heap 0).withDeps a b c)) 0
              = Result.ret w3 none ∧
          (w3.heap 0).deps = (w1.heap 0).deps) :=
  Refresh_resolution_idempotent (exGateway [2]) [2] (fun _ _ => ⟨rfl, rfl⟩) (fun _ _ => rfl)
    (fun _ _ => rfl) (fun _ _ => rfl) exWorldTracked 0 ⟨0, by decide, by decide⟩

/-- C12. In the state that `Refresh` leaves when the base reload and the job-level removal of
the tracked task 1 failed, the schedule does not track the task and its job holds two entries
and `TaskCnt = 2`. A `Refresh` of the task whose loads succeed then overwrites the job's entry
and increments `TaskCnt`: the job holds two entries and `TaskCnt = 3`. -/
theorem Refresh_insert_breaks_job_count :
    (∀ r ∈ exWorldHalfRemoved.sched.Tasks,
      (exWorldHalfRemoved.heap r).Id ≠ (exWorldHalfRemoved.heap 0).Id) ∧
    (exWorldHalfRemoved.job 0).TaskCnt = (exWorldHalfRemoved.job 0).Tasks.length ∧
    (exWorldHalfRemoved.sched.GetJobById (exWorldHalfRemoved.heap 0).JobId).toOption = some 0 ∧
    (Task.Refresh (exGateway [2]) exWorldHalfRemoved 0).fault? = none ∧
    (Task.Refresh (exGateway [2]) exWorldHalfRemoved 0).err? = none ∧
    (Task.Refresh (exGateway [2]) exWorldHalfRemoved 0).world?.map
      (fun w => ((w.job 0).TaskCnt, (w.job 0).Tasks.length)) = some (3, 2) := by
  decide

/-- C13 as stated fails: `InitTask` registers the untracked task 3 in the schedule and not in
its job; the following `Refresh`, whose loads succeed, returns nil, leaves the task in the
schedule's tasks and job 1, whose id is the task's `JobId`, without an entry for it. -/
theorem Refresh_tracked_not_in_job :
    (Task.InitTask (exGateway []) exWorldCY 0).1.sched.Tasks = [1, 0] ∧
    (Task.Refresh (exGateway []) (Task.InitTask (exGateway []) exWorldCY 0).1 0).fault? = none ∧
    (Task.Refresh (exGateway []) (Task.InitTask (exGateway []) exWorldCY 0).1 0).err? = none ∧
    (Task.Refresh (exGateway []) (Task.InitTask (exGateway []) exWorldCY 0).1 0).world?.map
      (fun w => (w.sched.Tasks, (w.heap 0).JobId, (w.job 0).Id)) = some ([1, 0], 1, 1) ∧
    (Task.Refresh (exGateway []) (Task.InitTask (exGateway []) exWorldCY 0).1 0).world?.map
      (fun w => (w.job 0).Tasks) = some [("2", some 1)] ∧
    (Task.Refresh (exGateway []) (Task.InitTask (exGateway []) exWorldCY 0).1 0).world?.map
      (fun w => mapGet (w.job 0).Tasks (FormatInt (w.heap 0).Id)) = some none := by
  decide

/-- C13, amended. After a `Refresh` of a task whose identity the schedule did not track that
returns nil, the task is in the schedule's tasks and the job found for the task's `JobId` has
that id and holds the task under the decimal string of its `Id`. A `Refresh` of a task whose
identity the schedule tracks and whose base reload succeeds returns and leaves the schedule,
its jobs included, as it was. -/
theorem Refresh_membership_on_insert {σ : Type} (gw : Gateway σ) (w : World σ) (p : Ptr) :
    ((∀ r ∈ w.sched.Tasks, (w.heap r).Id ≠ (w.heap p).Id) →
      ∀ w1, Task.Refresh gw w p = Result.ret w1 none →
        p ∈ w1.sched.Tasks ∧
        ∃ k, w.sched.GetJobById (w1.heap p).JobId = Except.ok k ∧
          (w1.job k).Id = (w1.heap p).JobId ∧
          mapGet (w1.job k).Tasks (FormatInt (w1.heap p).Id) = some (some p)) ∧
    ((∃ r ∈ w.sched.Tasks, (w.heap r).Id = (w.heap p).Id) → (w.getTask gw p).2 = none →
      ∃ w1 e, Task.Refresh gw w p = Result.ret w1 e ∧ w1.sched = w.sched) := by
  constructor
  · intro hun w1 hret
    have hi : scanTasks w.heap (w.heap p).Id w.sched.Tasks 0 (-1) = -1 :=
      scanTasks_none w.heap _ _ _ _ hun
    cases hg : (w.getTask gw p).2 with
    | some e =>
      have hf := Refresh_reload_failed_fault gw w p Fault.indexOutOfRange
        (by rw [hg]; rfl) (by rw [hi]; simp [refreshRemove])
      rw [hf] at hret
      simp at hret
    | none =>
      have hR := Refresh_reload_ok gw w p hg
      rw [hi, hret] at hR
      simp only [Result.ret.injEq] at hR
      obtain ⟨hw, he⟩ := hR
      have h2 := refreshRest_none gw _ p _ he.symm
      rw [refreshRest_loads_ok gw _ p _ h2, if_pos rfl] at hw he
      obtain ⟨k, hk⟩ := refreshInsert_none _ p he.symm
      obtain ⟨_, f2, _, f4, _⟩ := refreshInsert_found _ p k hk
      have f5 := refreshInsert_job_id _ p k hk
      obtain ⟨r1, _, _⟩ := resolveRelTasks_spec gw (afterLoads gw (w.getTask gw p).1 p) p
      rw [← hw] at f2 f4 f5
      have hheap : w1.heap = (resolveRelTasks gw (afterLoads gw (w.getTask gw p).1 p) p).heap := by
        rw [hw, refreshInsert_heap]
      refine ⟨by rw [f2]; simp, k, ?_, ?_, ?_⟩
      · rw [hheap]
        rw [r1] at hk
        exact hk
      · rw [f5, hheap]
      · rw [f4, hheap, mapGet_mapSet, if_pos rfl]
  · intro htr h1
    have hi := scanTasks_tracked w.heap _ _ htr
    refine ⟨_, _, Refresh_reload_ok gw w p h1, ?_⟩
    rw [(refreshRest_tracked gw _ p _ hi).1]
    rfl

/-- C13, amended, at the untracked task 3 of job 1, and at the same task once `InitTask`
registered it. -/
theorem Refresh_membership_on_insert_witness :
    (∃ w1, Task.Refresh (exGateway []) exWorldCY 0 = Result.ret w1 none ∧ 0 ∈ w1.sched.Tasks ∧
      ∃ k, exWorldCY.sched.GetJobById (w1.heap 0).JobId = Except.ok k ∧
        (w1.job k).Id = (w1.heap 0).JobId ∧
        mapGet (w1.job k).Tasks (FormatInt (w1.heap 0).Id) = some (some 0)) ∧
    (∃ w1 e, Task.Refresh (exGateway []) (Task.InitTask (exGateway []) exWorldCY 0).1 0
        = Result.ret w1 e ∧
      w1.sched = (Task.InitTask (exGateway []) exWorldCY 0).1.sched) :=
  ⟨⟨(refreshRest (exGateway []) (exWorldCY.getTask (exGateway []) 0).1 0 (-1)).1, rfl,
      (Refresh_membership_on_insert (exGateway []) exWorldCY 0).1 (by decide) _ rfl⟩,
    (Refresh_membership_on_insert (exGateway [])
      (Task.InitTask (exGateway []) exWorldCY 0).1 0).2 ⟨0, by decide, by decide⟩ (by decide)⟩

/-- C14. For a task with `RelTaskCnt = 0`, `NextTime` returns nil and sets `NextRunTime` to the
instant the evaluator gives for `TaskCyc`, base offset `[0]` and anchor `[StartSecond]`, leaving
every other task as it was; a second task with `RelTaskCnt = 0` and the same `TaskCyc` and
`StartSecond`, in any state, gets the same `NextRunTime` from the same evaluator. -/
theorem NextTime_cycle_only {σ : Type} (cd : CycleEvaluator) (w : World σ) (p : Ptr)
    (h : (w.heap p).RelTaskCnt = 0) :
    (∃ w1, Task.NextTime cd w p = Result.ret w1 none ∧
      (w1.heap p).NextRunTime = (cd (w.heap p).TaskCyc [0] [(w.heap p).StartSecond]).1 ∧
      (∀ q, q ≠ p → w1.heap q = w.heap q)) ∧
    (∀ (w2 : World σ) (p2 : Ptr), (w2.heap p2).RelTaskCnt = 0 →
      (w2.heap p2).TaskCyc = (w.heap p).TaskCyc →
      (w2.heap p2).StartSecond = (w.heap p).StartSecond →
      ∃ w1 w3, Task.NextTime cd w p = Result.ret w1 none ∧
        Task.NextTime cd w2 p2 = Result.ret w3 none ∧
        (w3.heap p2).NextRunTime = (w1.heap p).NextRunTime) := by
  refine ⟨⟨_, NextTime_of_cycle cd w p h, ?_, ?_⟩, ?_⟩
  · simp [World.setTask]
  · intro q hq
    simp [World.setTask, hq]
  · intro w2 p2 h2 hc hs
    refine ⟨_, _, NextTime_of_cycle cd w p h, NextTime_of_cycle cd w2 p2 h2, ?_⟩
    simp [World.setTask, hc, hs]

/-- C14 at task 1 of `exWorldAB` and task 3 of `exWorldCY`: both have no resolved dependency,
the cycle `1h` and the start offset 0, and differ in identity and in `NextRunTime`. -/
theorem NextTime_cycle_only_witness :
    (∃ w1, Task.NextTime exEval exWorldAB 0 = Result.ret w1 none ∧
      (w1.heap 0).NextRunTime =
        (exEval (exWorldAB.heap 0).TaskCyc [0] [(exWorldAB.heap 0).StartSecond]).1 ∧
      (∀ q, q ≠ 0 → w1.heap q = exWorldAB.heap q)) ∧
    (∃ w1 w3, Task.NextTime exEval exWorldAB 0 = Result.ret w1 none ∧
      Task.NextTime exEval exWorldCY 0 = Result.ret w3 none ∧
      (w3.heap 0).NextRunTime = (w1.heap 0).NextRunTime) :=
  ⟨(NextTime_cycle_only exEval exWorldAB 0 (by decide)).1,
    (NextTime_cycle_only exEval exWorldAB 0 (by decide)).2 exWorldCY 0 (by decide) (by decide)
      (by decide)⟩

/-- C15. On task 3, whose `RelTasks` holds a nil entry and which has one parameter, with a
store in which every insert succeeds, `AddTask` does not return: after the base row and the job
relation it faults at `rt.Id`; no error comes back and the parameter row is never reached. -/
theorem AddTask_faults_without_return :
    (exWorldNilDep.heap 0).RelTasks = [("1", none)] ∧
    (exWorldNilDep.heap 0).Param = ["a"] ∧
    ((exGateway []).add exWorldNilDep.db (exWorldNilDep.heap 0)).2 = none ∧
    ((exGateway []).addRelJob exWorldNilDep.db (exWorldNilDep.heap 0)).2 = none ∧
    (Task.AddTask (exGateway []) exWorldNilDep 0).fault? = some Fault.nilDeref ∧
    (Task.AddTask (exGateway []) exWorldNilDep 0).err? = none ∧
    (Task.AddTask (exGateway []) exWorldNilDep 0).world?.isNone = true := by
  decide

/-- C16. `Delete` issues exactly the calls of the plan `deletePlan` (parameters, the
dependency relation of every id of `RelTasksId` in order, the job relation, the base row) up to
and including the first that fails, and nothing else; it changes neither the heap nor the
schedule; its error is nil exactly when no step failed, and then every call of the plan was
issued; the base row's deletion is issued only when every step before it succeeded. -/
theorem Delete_follows_plan {σ : Type} (gw : Gateway σ) (w : World σ) (p : Ptr) :
    (Task.Delete gw w p).1 = w.after (runPlan (deletePlan gw p (w.heap p)) w.db) ∧
    (deletePlan gw p (w.heap p)).map Prod.fst =
      [Call.delParam p] ++ (w.heap p).RelTasksId.map (Call.deleteRelTask p)
        ++ [Call.deleteJobTaskRel p, Call.deleteTask p] ∧
    (runPlan (deletePlan gw p (w.heap p)) w.db).1 <+: (deletePlan gw p (w.heap p)).map Prod.fst ∧
    ((Task.Delete gw w p).2 = none ↔ (runPlan (deletePlan gw p (w.heap p)) w.db).2.2 = none) ∧
    ((Task.Delete gw w p).2 = none →
      (Task.Delete gw w p).1.calls = w.calls ++ (deletePlan gw p (w.heap p)).map Prod.fst) ∧
    (Call.deleteTask p ∈ (runPlan (deletePlan gw p (w.heap p)) w.db).1 →
      (runPlan (deletePlan gw p (w.heap p)).dropLast w.db).2.2 = none) := by
  obtain ⟨d1, d2⟩ := Delete_run gw w p
  refine ⟨d1, ?_, runPlan_in_order _ _, d2, ?_, ?_⟩
  · simp [deletePlan, Function.comp_def]
  · intro hn
    rw [d1]
    simp only [World.after]
    rw [runPlan_none _ _ (d2.mp hn)]
  · intro hmem
    have hsplit : deletePlan gw p (w.heap p) =
        ([(Call.delParam p, fun db => gw.delParam db (w.heap p))]
          ++ (w.heap p).RelTasksId.map (fun rid =>
            ((Call.deleteRelTask p rid, fun db => gw.deleteRelTask db (w.heap p) rid) : Step σ))
          ++ [(Call.deleteJobTaskRel p, fun db => gw.deleteJobTaskRel db (w.heap p))])
          ++ [(Call.deleteTask p, fun db => gw.deleteTask db (w.heap p))] := by
      simp [deletePlan]
    rw [hsplit, List.dropLast_concat]
    rw [hsplit, runPlan_append] at hmem
    by_contra hne
    obtain ⟨e, he⟩ := Option.ne_none_iff_exists'.mp hne
    rw [he] at hmem
    have hpre := (runPlan_in_order _ _).subset hmem
    simp [Function.comp_def] at hpre

/-- C17. `DeleteRelTask`, and `AddRelTask` with a live task `d`, issue one persistence call and
leave the heap as it was, in particular the task's `RelTasksId`, `RelTasks` and `RelTaskCnt`;
they return an error exactly when that call failed. -/
theorem RelTask_calls_keep_memory {σ : Type} (gw : Gateway σ) (w : World σ) (p d : Ptr)
    (relid : Int) :
    ((Task.DeleteRelTask gw w p relid).1.heap = w.heap ∧
      ((Task.DeleteRelTask gw w p relid).1.heap p).deps = (w.heap p).deps ∧
      (Task.DeleteRelTask gw w p relid).1.calls = w.calls ++ [Call.deleteRelTask p relid] ∧
      ((Task.DeleteRelTask gw w p relid).2.isSome ↔
        (gw.deleteRelTask w.db (w.heap p) relid).2.isSome)) ∧
    (∃ w1 e, Task.AddRelTask gw w p (some d) = Result.ret w1 e ∧
      w1.heap = w.heap ∧ (w1.heap p).deps = (w.heap p).deps ∧
      w1.calls = w.calls ++ [Call.addRelTask p (w.heap d).Id] ∧
      (e.isSome ↔ (gw.addRelTask w.db (w.heap p) (w.heap d).Id).2.isSome)) := by
  constructor
  · cases h : (gw.deleteRelTask w.db (w.heap p) relid).2 <;>
      simp [Task.DeleteRelTask, World.store, World.record, h]
  · cases h : (gw.addRelTask w.db (w.heap p) (w.heap d).Id).2 with
    | none =>
      exact ⟨(w.store (Call.addRelTask p (w.heap d).Id)
          (gw.addRelTask w.db (w.heap p) (w.heap d).Id)).1, none,
        by simp only [Task.AddRelTask, World.store, h], rfl, rfl, rfl, by simp⟩
    | some e =>
      exact ⟨(w.store (Call.addRelTask p (w.heap d).Id)
          (gw.addRelTask w.db (w.heap p) (w.heap d).Id)).1,
        some ("\n[t.AddRelTask] error " ++ e ++ "."),
        by simp only [Task.AddRelTask, World.store, h], rfl, rfl, rfl, by simp⟩

/-- C18. On task 3, which the schedule does not track, with a store in which the base reload
fails, the identity scan of `Refresh` leaves the index `-1` and `Refresh` faults at
`s.Tasks[i]` with an index out of range: it does not return. -/
theorem Refresh_untracked_reload_failure_faults :
    scanTasks exWorldCY.heap (exWorldCY.heap 0).Id exWorldCY.sched.Tasks 0 (-1) = -1 ∧
    (exWorldCY.getTask (exGatewayNoRow []) 0).2 = some "sql: no rows in result set" ∧
    (Task.Refresh (exGatewayNoRow []) exWorldCY 0).fault? = some Fault.indexOutOfRange ∧
    (Task.Refresh (exGatewayNoRow []) exWorldCY 0).err? = none ∧
    (Task.Refresh (exGatewayNoRow []) exWorldCY 0).world?.isNone = true := by
  decide

/-- C19. When the schedule tracks the task's identity and the base reload of `Refresh` fails,
`Refresh` returns (with or without an error) and the schedule's tasks are the former sequence
`pre ++ q :: post` without `q`, the entry at the last position whose `Id` is the task's `Id`;
`TaskCnt` is the former length minus one. -/
theorem Refresh_removes_last_match {σ : Type} (gw : Gateway σ) (w : World σ) (p : Ptr)
    (e : String) (htr : ∃ r ∈ w.sched.Tasks, (w.heap r).Id = (w.heap p).Id)
    (hfail : (w.getTask gw p).2 = some e) :
    ∃ pre q post w1 e1, w.sched.Tasks = pre ++ q :: post ∧
      (w.heap q).Id = (w.heap p).Id ∧ (∀ r ∈ post, (w.heap r).Id ≠ (w.heap p).Id) ∧
      Task.Refresh gw w p = Result.ret w1 e1 ∧
      w1.sched.Tasks = pre ++ post ∧
      w1.sched.TaskCnt = (w.sched.Tasks.length : Int) - 1 := by
  obtain ⟨pre, q, post, hT, hq, hpost⟩ := exists_last_match w.heap _ _ htr
  have hi : scanTasks w.heap (w.heap p).Id w.sched.Tasks 0 (-1) = (pre.length : Int) := by
    rw [hT]
    exact scanTasks_unique w.heap _ pre post q hq hpost
  have hs : (w.getTask gw p).1.sched = w.sched := rfl
  obtain ⟨w2, e2, hrem, _, h2t, h2c⟩ :=
    refreshRemove_tasks gw (w.getTask gw p).1 pre post q (hs ▸ hT)
  have hlen : ((pre ++ post).length : Int) = (w.sched.Tasks.length : Int) - 1 := by
    rw [hT]
    simp only [List.length_append, List.length_cons]
    push_cast
    ring
  have hsome : (w.getTask gw p).2.isSome := by rw [hfail]; rfl
  cases e2 with
  | some e3 =>
    refine ⟨pre, q, post, w2, some e3, hT, hq, hpost, ?_, h2t, ?_⟩
    · exact Refresh_reload_failed_err gw w w2 p e3 hsome (by rw [hi]; exact hrem)
    · rw [h2c, hlen]
  | none =>
    have hne : (pre.length : Int) ≠ -1 := by omega
    obtain ⟨hrs, _⟩ := refreshRest_tracked gw w2 p (pre.length : Int) hne
    have hR := Refresh_reload_failed gw w w2 p hsome (by rw [hi]; exact hrem)
    rw [hi] at hR
    refine ⟨pre, q, post, _, _, hT, hq, hpost, hR, ?_, ?_⟩
    · rw [hrs, h2t]
    · rw [hrs, h2c, hlen]

/-- C19 at the schedule in which `InitTask` registered task 3 twice, after task 2: the base
reload fails and `Refresh` takes out the last of the three entries. -/
theorem Refresh_removes_last_match_witness :
    ∃ pre q post w1 e1,
      (Task.InitTask (exGateway []) (Task.InitTask (exGateway []) exWorldCY 0).1 0).1.sched.Tasks
        = pre ++ q :: post ∧
      ((Task.InitTask (exGateway []) (Task.InitTask (exGateway []) exWorldCY 0).1 0).1.heap q).Id
        = ((Task.InitTask (exGateway []) (Task.InitTask (exGateway []) exWorldCY 0).1 0).1.heap
            0).Id ∧
      (∀ r ∈ post,
        ((Task.InitTask (exGateway []) (Task.InitTask (exGateway []) exWorldCY 0).1 0).1.heap r).Id
          ≠ ((Task.InitTask (exGateway []) (Task.InitTask (exGateway []) exWorldCY 0).1 0).1.heap
              0).Id) ∧
      Task.Refresh (exGatewayNoRow [])
        (Task.InitTask (exGateway []) (Task.InitTask (exGateway []) exWorldCY 0).1 0).1 0
          = Result.ret w1 e1 ∧
      w1.sched.Tasks = pre ++ post ∧
      w1.sched.TaskCnt =
        ((Task.InitTask (exGateway []) (Task.InitTask (exGateway []) exWorldCY 0).1
          0).1.sched.Tasks.length : Int) - 1 :=
  Refresh_removes_last_match (exGatewayNoRow [])
    (Task.InitTask (exGateway []) (Task.InitTask (exGateway []) exWorldCY 0).1 0).1 0
    "sql: no rows in result set" ⟨0, by decide, by decide⟩ (by decide)

end Hivego
